import Mathlib

/-!
# Verification of the omni-agent-sdk normalization layer

Shallow embedding of the repository's provider event mappers
(`provider-claude/src/mappers/event.ts`, `provider-codex/src/mappers/event.ts`,
the OpenCode event mapper), the three stream engines (`ClaudeStream`,
`OpenCodeStream`, `CodexStream`) and the fallback dispatcher
(`core/src/agent-manager.ts`), together with proofs about the stream
contract, the mapper contract and the registry invariants.

JavaScript runtime values that the source treats structurally (`unknown`
payloads, untyped raw events) are modelled by the inductive type `JSVal`.
JS numbers are modelled as integers: no claim involves fractional
arithmetic.  Property access `v.k` is modelled by `JSVal.get`, which
throws a `TypeError` on `null`/`undefined` exactly as JavaScript does,
and yields `undefined` for an absent key.
-/

set_option autoImplicit false

namespace OmniAgent

/-- A JavaScript runtime value (numbers modelled as integers). -/
inductive JSVal where
  | vnull
  | vundef
  | vbool (b : Bool)
  | vnum (n : Int)
  | vstr (s : String)
  | varr (elems : List JSVal)
  | vobj (fields : List (String × JSVal))
  deriving Repr

mutual

def jsDecEq : (a b : JSVal) → Decidable (a = b)
  | .vnull, .vnull => isTrue rfl
  | .vundef, .vundef => isTrue rfl
  | .vbool a, .vbool b =>
    match decEq a b with
    | isTrue h => isTrue (by rw [h])
    | isFalse h => isFalse (fun hh => h (by injection hh))
  | .vnum a, .vnum b =>
    match decEq a b with
    | isTrue h => isTrue (by rw [h])
    | isFalse h => isFalse (fun hh => h (by injection hh))
  | .vstr a, .vstr b =>
    match decEq a b with
    | isTrue h => isTrue (by rw [h])
    | isFalse h => isFalse (fun hh => h (by injection hh))
  | .varr a, .varr b =>
    match jsListDecEq a b with
    | isTrue h => isTrue (by rw [h])
    | isFalse h => isFalse (fun hh => h (by injection hh))
  | .vobj a, .vobj b =>
    match jsFieldsDecEq a b with
    | isTrue h => isTrue (by rw [h])
    | isFalse h => isFalse (fun hh => h (by injection hh))
  | .vnull, .vundef | .vnull, .vbool _ | .vnull, .vnum _ | .vnull, .vstr _
  | .vnull, .varr _ | .vnull, .vobj _ => isFalse (by intro h; exact JSVal.noConfusion h)
  | .vundef, .vnull | .vundef, .vbool _ | .vundef, .vnum _ | .vundef, .vstr _
  | .vundef, .varr _ | .vundef, .vobj _ => isFalse (by intro h; exact JSVal.noConfusion h)
  | .vbool _, .vnull | .vbool _, .vundef | .vbool _, .vnum _ | .vbool _, .vstr _
  | .vbool _, .varr _ | .vbool _, .vobj _ => isFalse (by intro h; exact JSVal.noConfusion h)
  | .vnum _, .vnull | .vnum _, .vundef | .vnum _, .vbool _ | .vnum _, .vstr _
  | .vnum _, .varr _ | .vnum _, .vobj _ => isFalse (by intro h; exact JSVal.noConfusion h)
  | .vstr _, .vnull | .vstr _, .vundef | .vstr _, .vbool _ | .vstr _, .vnum _
  | .vstr _, .varr _ | .vstr _, .vobj _ => isFalse (by intro h; exact JSVal.noConfusion h)
  | .varr _, .vnull | .varr _, .vundef | .varr _, .vbool _ | .varr _, .vnum _
  | .varr _, .vstr _ | .varr _, .vobj _ => isFalse (by intro h; exact JSVal.noConfusion h)
  | .vobj _, .vnull | .vobj _, .vundef | .vobj _, .vbool _ | .vobj _, .vnum _
  | .vobj _, .vstr _ | .vobj _, .varr _ => isFalse (by intro h; exact JSVal.noConfusion h)

def jsListDecEq : (a b : List JSVal) → Decidable (a = b)
  | [], [] => isTrue rfl
  | [], _ :: _ => isFalse (by intro h; exact List.noConfusion h)
  | _ :: _, [] => isFalse (by intro h; exact List.noConfusion h)
  | x :: xs, y :: ys =>
    match jsDecEq x y with
    | isFalse h => isFalse (fun hh => h (by injection hh))
    | isTrue h1 =>
      match jsListDecEq xs ys with
      | isTrue h2 => isTrue (by rw [h1, h2])
      | isFalse h => isFalse (fun hh => h (by injection hh))

def jsFieldsDecEq : (a b : List (String × JSVal)) → Decidable (a = b)
  | [], [] => isTrue rfl
  | [], _ :: _ => isFalse (by intro h; exact List.noConfusion h)
  | _ :: _, [] => isFalse (by intro h; exact List.noConfusion h)
  | (k1, v1) :: xs, (k2, v2) :: ys =>
    match decEq k1 k2 with
    | isFalse h => isFalse (fun hh => by
        injection hh with h1 h2; exact h (congrArg Prod.fst h1))
    | isTrue hk =>
      match jsDecEq v1 v2 with
      | isFalse h => isFalse (fun hh => by
          injection hh with h1 h2; exact h (congrArg Prod.snd h1))
      | isTrue hv =>
        match jsFieldsDecEq xs ys with
        | isTrue ht => isTrue (by rw [hk, hv, ht])
        | isFalse h => isFalse (fun hh => h (by injection hh))

end

instance : DecidableEq JSVal := jsDecEq

namespace JSVal

/-- Looks up an own property of an object field list (first occurrence). -/
def lookupField : List (String × JSVal) → String → Option JSVal
  | [], _ => none
  | (k, v) :: rest, key => if k = key then some v else lookupField rest key

/-- `typeof v === "object" && v !== null` (arrays are objects in JS). -/
def isObjectJS : JSVal → Bool
  | vobj _ => true
  | varr _ => true
  | _ => false

/-- Property read `v[key]` on a value known not to be `null`/`undefined`:
total, yielding `undefined` for absent keys and for named keys of
primitives and arrays. -/
def getD : JSVal → String → JSVal
  | vobj fs, key => (lookupField fs key).getD vundef
  | _, _ => vundef

/-- `key in v` for an object/array value. -/
def hasKey : JSVal → String → Bool
  | vobj fs, key => (lookupField fs key).isSome
  | _, _ => false

/-- `typeof v === "string"`. -/
def isStr : JSVal → Bool
  | vstr _ => true
  | _ => false

/-- The integer of a `vnum`, defaulting to `0` (used only after a shape
or nullish check has established the field is a number). -/
def asNum : JSVal → Int
  | vnum n => n
  | _ => 0

/-- Extracts the string of a `vstr`, defaulting to `""`. -/
def asStr : JSVal → String
  | vstr s => s
  | _ => ""

end JSVal

mutual

/-- JavaScript string coercion `String(v)` (used by `+=` when a
non-string sneaks into a string position).  Integers print as in JS;
array elements are joined with commas, `null`/`undefined` elements
printing as the empty string. -/
def jsToString : JSVal → String
  | .vnull => "null"
  | .vundef => "undefined"
  | .vbool b => if b then "true" else "false"
  | .vnum n => toString n
  | .vstr s => s
  | .varr xs => jsListToString xs
  | .vobj _ => "[object Object]"

def jsListToString : List JSVal → String
  | [] => ""
  | [x] =>
    match x with
    | .vnull => ""
    | .vundef => ""
    | v => jsToString v
  | x :: y :: rest =>
    (match x with
     | .vnull => ""
     | .vundef => ""
     | v => jsToString v) ++ "," ++ jsListToString (y :: rest)

end

/-- The canonical error codes (`OmniErrorCode` in `core/src/errors.ts`). -/
inductive OmniErrorCode where
  | ABORT
  | BUDGET_EXCEEDED
  | TURN_LIMIT
  | PERMISSION_DENIED
  | SESSION_NOT_FOUND
  | PROVIDER_ERROR
  | CONFIGURATION
  | NETWORK
  | UNKNOWN
  deriving Repr, DecidableEq

/-- A thrown JavaScript error value.
`omniError name provider code msg` models an `OmniAgentError` or one of its
subclasses (distinguished by the `name` field set in each constructor);
`allAgentsFailed` models the `AllAgentsFailedError` subclass with its
`errors` list of `(agentName, error)` pairs; `plainError` models a plain
`Error`; `typeError` models a runtime `TypeError` such as a property
access on `null`/`undefined`.  The opaque `raw`/`cause` payloads are not
modelled. -/
inductive JsErr where
  | omniError (name : String) (provider : String) (code : OmniErrorCode) (msg : String)
  | allAgentsFailed (errors : List (String × JsErr))
  | plainError (msg : String)
  | typeError (msg : String)
  deriving Repr

mutual

def jsErrDecEq : (a b : JsErr) → Decidable (a = b)
  | .omniError n1 p1 c1 m1, .omniError n2 p2 c2 m2 =>
    match decEq n1 n2, decEq p1 p2, decEq c1 c2, decEq m1 m2 with
    | isTrue h1, isTrue h2, isTrue h3, isTrue h4 => isTrue (by rw [h1, h2, h3, h4])
    | isFalse h, _, _, _ => isFalse (fun hh => h (by injection hh))
    | _, isFalse h, _, _ => isFalse (fun hh => h (by injection hh))
    | _, _, isFalse h, _ => isFalse (fun hh => h (by injection hh))
    | _, _, _, isFalse h => isFalse (fun hh => h (by injection hh))
  | .allAgentsFailed a, .allAgentsFailed b =>
    match jsErrListDecEq a b with
    | isTrue h => isTrue (by rw [h])
    | isFalse h => isFalse (fun hh => h (by injection hh))
  | .plainError a, .plainError b =>
    match decEq a b with
    | isTrue h => isTrue (by rw [h])
    | isFalse h => isFalse (fun hh => h (by injection hh))
  | .typeError a, .typeError b =>
    match decEq a b with
    | isTrue h => isTrue (by rw [h])
    | isFalse h => isFalse (fun hh => h (by injection hh))
  | .omniError _ _ _ _, .allAgentsFailed _ | .omniError _ _ _ _, .plainError _
  | .omniError _ _ _ _, .typeError _ => isFalse (by intro h; exact JsErr.noConfusion h)
  | .allAgentsFailed _, .omniError _ _ _ _ | .allAgentsFailed _, .plainError _
  | .allAgentsFailed _, .typeError _ => isFalse (by intro h; exact JsErr.noConfusion h)
  | .plainError _, .omniError _ _ _ _ | .plainError _, .allAgentsFailed _
  | .plainError _, .typeError _ => isFalse (by intro h; exact JsErr.noConfusion h)
  | .typeError _, .omniError _ _ _ _ | .typeError _, .allAgentsFailed _
  | .typeError _, .plainError _ => isFalse (by intro h; exact JsErr.noConfusion h)

def jsErrListDecEq : (a b : List (String × JsErr)) → Decidable (a = b)
  | [], [] => isTrue rfl
  | [], _ :: _ => isFalse (by intro h; exact List.noConfusion h)
  | _ :: _, [] => isFalse (by intro h; exact List.noConfusion h)
  | (k1, v1) :: xs, (k2, v2) :: ys =>
    match decEq k1 k2 with
    | isFalse h => isFalse (fun hh => by
        injection hh with h1 h2; exact h (congrArg Prod.fst h1))
    | isTrue hk =>
      match jsErrDecEq v1 v2 with
      | isFalse h => isFalse (fun hh => by
          injection hh with h1 h2; exact h (congrArg Prod.snd h1))
      | isTrue hv =>
        match jsErrListDecEq xs ys with
        | isTrue ht => isTrue (by rw [hk, hv, ht])
        | isFalse h => isFalse (fun hh => h (by injection hh))

end

instance : DecidableEq JsErr := jsErrDecEq

namespace JsErr

/-- `err instanceof OmniAgentError` (subclasses included). -/
def isOmniAgentError : JsErr → Bool
  | omniError _ _ _ _ => true
  | allAgentsFailed _ => true
  | _ => false

/-- The `code` carried when the error is an `OmniAgentError`
(`AllAgentsFailedError` is constructed with code `PROVIDER_ERROR`). -/
def code : JsErr → Option OmniErrorCode
  | omniError _ _ c _ => some c
  | allAgentsFailed _ => some .PROVIDER_ERROR
  | _ => none

/-- The `message` of the error. -/
def message : JsErr → String
  | omniError _ _ _ m => m
  | allAgentsFailed errs => "All agents failed (" ++ toString errs.length ++ " attempted)"
  | plainError m => m
  | typeError m => m

end JsErr

namespace JSVal

/-- General property read `v[key]`: throws a `TypeError` on `null` and
`undefined` (as JavaScript does), otherwise behaves like `getD`. -/
def get : JSVal → String → Except JsErr JSVal
  | vnull, key =>
    .error (.typeError ("Cannot read properties of null (reading " ++ key ++ ")"))
  | vundef, key =>
    .error (.typeError ("Cannot read properties of undefined (reading " ++ key ++ ")"))
  | v, key => .ok (v.getD key)

end JSVal

/-- A token-usage record (`OmniTokenUsage`). -/
structure OmniTokens where
  input : Int
  output : Int
  total : Int
  deriving Repr, DecidableEq

/-- Usage metadata (`OmniUsage`); all fields optional, as in the source. -/
structure OmniUsage where
  totalCostUsd : Option Int := none
  durationMs : Option Int := none
  tokens : Option OmniTokens := none
  numTurns : Option Int := none
  deriving Repr, DecidableEq

/-- A canonical content block (`OmniContentBlock`).  Fields the source
populates from checked strings stay `String`; fields it copies from
`unknown` payloads are `JSVal` (in particular `text`, which the raw
Codex item mapper copies unchecked; checked producers wrap `vstr`). -/
inductive OmniContentBlock where
  | text (text : JSVal)
  | tool_use (toolName : String) (toolId : String) (input : JSVal)
  | tool_result (toolId : String) (output : JSVal) (isError : Bool)
  | reasoning (text : String)
  | file_change (path : String) (operation : String) (diff : Option String)
  deriving Repr, DecidableEq

/-- A canonical message (`OmniMessage`).  The OpenCode message mapper
copies `message.id` without a runtime type check, so `id` is a `JSVal`;
providers that derive the id from a checked/typed string wrap it with
`JSVal.vstr`.  The wall-clock `createdAt` timestamp and the opaque `raw`
payload are not modelled. -/
structure OmniMessage where
  id : JSVal
  role : String
  content : List OmniContentBlock
  deriving Repr, DecidableEq

/-- The terminal result of a prompt (`PromptResult`).  The opaque `raw`
payload is not modelled. -/
structure PromptResult where
  sessionId : String
  messages : List OmniMessage
  text : String
  isError : Bool
  structuredOutput : Option JSVal := none
  usage : OmniUsage
  deriving Repr, DecidableEq

/-- A canonical stream event (`OmniEvent`).  `text_delta` text and the
tool name/id of `tool_start`/`tool_end` are copied by the Claude event
mapper from unchecked payload fields, so they are `JSVal`; producers that
have a checked/typed string wrap it with `JSVal.vstr`.  `tool_start`'s
`input` is `none` when the source omits the property. -/
inductive OmniEvent where
  | text_delta (text : JSVal)
  | tool_start (toolName : JSVal) (toolId : JSVal) (input : Option JSVal)
  | tool_end (toolId : JSVal) (output : JSVal) (isError : Bool)
  | message_start (role : String)
  | message_end (message : OmniMessage)
  | turn_start
  | turn_end (usage : Option OmniUsage)
  | error (e : JsErr)
  deriving Repr, DecidableEq

/-! ## Claude provider: event mapper (`provider-claude/src/mappers/event.ts`)

The raw Anthropic stream event arrives typed `unknown`, so the mapper is
embedded over `JSVal`.  The JS builtin `JSON.parse` is external to the
repository and is modelled as an explicit parameter
`jsonParse : String → Option JSVal`, where `none` models a thrown parse
error. -/

namespace Claude

open JSVal

/-- In-progress tool-use block state (`ToolBlockState`).  `toolId` and
`toolName` are copied from unchecked payload fields. -/
structure ToolBlockState where
  toolId : JSVal
  toolName : JSVal
  accumulatedJson : String
  deriving Repr, DecidableEq

/-- `Map<number, ToolBlockState>` keyed by the raw `index` value, as an
insertion-ordered association list.  JS `Map` key comparison is
SameValueZero; for the primitive keys that occur here this is value
equality. -/
abbrev ToolBlockMap := List (JSVal × ToolBlockState)

/-- `Map.get`. -/
def tbGet : ToolBlockMap → JSVal → Option ToolBlockState
  | [], _ => none
  | (k, v) :: rest, key => if k = key then some v else tbGet rest key

/-- `Map.set`: replaces the value at an existing key in place, otherwise
appends. -/
def tbSet : ToolBlockMap → JSVal → ToolBlockState → ToolBlockMap
  | [], key, v => [(key, v)]
  | (k, w) :: rest, key, v =>
    if k = key then (k, v) :: rest else (k, w) :: tbSet rest key v

/-- `Map.delete`. -/
def tbDelete : ToolBlockMap → JSVal → ToolBlockMap
  | [], _ => []
  | (k, w) :: rest, key => if k = key then rest else (k, w) :: tbDelete rest key

/-- In-place mutation of the entry at `key` (the reference-aliased
`toolState.accumulatedJson += ...` in the source); a no-op when the key
is absent, matching the `toolState !== undefined` guard. -/
def tbUpdate : ToolBlockMap → JSVal → (ToolBlockState → ToolBlockState) → ToolBlockMap
  | [], _, _ => []
  | (k, w) :: rest, key, f =>
    if k = key then (k, f w) :: rest else (k, w) :: tbUpdate rest key f

/-- `EventMapperState`. -/
structure EventMapperState where
  toolBlocks : ToolBlockMap
  deriving Repr, DecidableEq

/-- `createEventMapperState`. -/
def createEventMapperState : EventMapperState := ⟨[]⟩

/-- `isKnownStreamEvent`: a non-null object (arrays carry no `type` own
property, so only plain objects qualify) whose `type` property is a
string. -/
def isKnownStreamEvent (event : JSVal) : Bool :=
  match event with
  | .vobj fs =>
    match lookupField fs "type" with
    | some (.vstr _) => true
    | _ => false
  | _ => false

/-- `mapStreamEvent`: maps a raw Anthropic stream event to zero or more
canonical events, accumulating tool input JSON across deltas.
`jsonParse` stands for the JS builtin `JSON.parse` (`none` = throws). -/
def mapStreamEvent (jsonParse : String → Option JSVal) (rawEvent : JSVal)
    (state : EventMapperState) : Except JsErr (List OmniEvent × EventMapperState) :=
  if ¬ isKnownStreamEvent rawEvent then .ok ([], state)
  else
    match (rawEvent.getD "type") with
    | .vstr ty =>
      if ty = "message_start" then
        .ok ([.message_start "assistant"], state)
      else if ty = "content_block_start" then do
        let block := rawEvent.getD "content_block"
        let blockTy ← block.get "type"
        match blockTy with
        | .vstr "tool_use" => do
          let toolId ← block.get "id"
          let toolName ← block.get "name"
          let idx := rawEvent.getD "index"
          let state' : EventMapperState :=
            ⟨tbSet state.toolBlocks idx ⟨toolId, toolName, ""⟩⟩
          .ok ([.tool_start toolName toolId none], state')
        | _ => .ok ([], state)
      else if ty = "content_block_delta" then do
        let delta := rawEvent.getD "delta"
        let deltaTy ← delta.get "type"
        match deltaTy with
        | .vstr "text_delta" => do
          let t ← delta.get "text"
          .ok ([.text_delta t], state)
        | .vstr "input_json_delta" => do
          let pj ← delta.get "partial_json"
          let idx := rawEvent.getD "index"
          let state' : EventMapperState :=
            ⟨tbUpdate state.toolBlocks idx
              (fun ts => { ts with accumulatedJson := ts.accumulatedJson ++ jsToString pj })⟩
          .ok ([], state')
        | _ => .ok ([], state)
      else if ty = "content_block_stop" then
        let idx := rawEvent.getD "index"
        match tbGet state.toolBlocks idx with
        | none => .ok ([], state)
        | some ts =>
          let parsedInput : JSVal :=
            if 0 < ts.accumulatedJson.length then
              match jsonParse ts.accumulatedJson with
              | some v => v
              | none => .vstr ts.accumulatedJson
            else .vundef
          .ok ([.tool_end ts.toolId parsedInput false], ⟨tbDelete state.toolBlocks idx⟩)
      else
        -- `message_delta`, `message_stop` and unknown type strings all
        -- leave `events` empty.
        .ok ([], state)
    | _ => .ok ([], state)

/-! ### Claude message mapper (`provider-claude/src/mappers/message.ts`) -/

/-- The structurally narrowed content blocks (`KnownContentBlock`). -/
inductive KnownContentBlock where
  | text (text : String)
  | tool_use (id : String) (name : String) (input : JSVal)
  | tool_result (tool_use_id : String) (content : JSVal) (is_error : Option Bool)
  | thinking (thinking : String)
  deriving Repr, DecidableEq

/-- `narrowContentBlock`. -/
def narrowContentBlock (raw : JSVal) : Option KnownContentBlock :=
  if ¬ (isObjectJS raw ∧ (raw.getD "type").isStr) then none
  else
    let ty := (raw.getD "type").asStr
    if ty = "text" ∧ (raw.getD "text").isStr then
      some (.text (raw.getD "text").asStr)
    else if ty = "tool_use" ∧ (raw.getD "id").isStr ∧ (raw.getD "name").isStr then
      some (.tool_use (raw.getD "id").asStr (raw.getD "name").asStr (raw.getD "input"))
    else if ty = "tool_result" ∧ (raw.getD "tool_use_id").isStr then
      some (.tool_result (raw.getD "tool_use_id").asStr (raw.getD "content")
        (match raw.getD "is_error" with
         | .vbool b => some b
         | _ => none))
    else if ty = "thinking" ∧ (raw.getD "thinking").isStr then
      some (.thinking (raw.getD "thinking").asStr)
    else none

/-- `mapContentBlock` (the source's switch is exhaustive, so it never
returns `undefined`; the `Option` mirrors its declared return type). -/
def mapContentBlock : KnownContentBlock → Option OmniContentBlock
  | .text t => some (.text (.vstr t))
  | .tool_use id name input => some (.tool_use name id input)
  | .tool_result tuId content isErr => some (.tool_result tuId content (isErr = some true))
  | .thinking t => some (.reasoning t)

/-- `mapAssistantMessage`, over the `BetaMessage` payload (treated
structurally by the source) and the `uuid` fallback id. -/
def mapAssistantMessage (message : JSVal) (uuid : String) : Except JsErr OmniMessage := do
  let contentv ← message.get "content"
  let rawContent : List JSVal :=
    match contentv with
    | .varr xs => xs
    | _ => []
  let content := rawContent.foldl (fun acc raw =>
    match narrowContentBlock raw with
    | some block =>
      match mapContentBlock block with
      | some mapped => acc ++ [mapped]
      | none => acc
    | none => acc) []
  let idv ← message.get "id"
  let messageId : JSVal :=
    match idv with
    | .vstr s => .vstr s
    | _ => .vstr uuid
  .ok { id := messageId, role := "assistant", content := content }

/-- `isSDKResultCommonShape`. -/
def isSDKResultCommonShape (v : JSVal) : Bool :=
  isObjectJS v &&
    (match v.getD "total_cost_usd" with | .vnum _ => true | _ => false) &&
    (match v.getD "duration_ms" with | .vnum _ => true | _ => false) &&
    (match v.getD "num_turns" with | .vnum _ => true | _ => false)

/-- `isSDKUsageShape`. -/
def isSDKUsageShape (v : JSVal) : Bool :=
  isObjectJS v &&
    (match v.getD "input_tokens" with | .vnum _ => true | _ => false) &&
    (match v.getD "output_tokens" with | .vnum _ => true | _ => false)

/-- `mapResultUsage`, over the result message object viewed structurally. -/
def mapResultUsage (result : JSVal) : OmniUsage :=
  if isSDKResultCommonShape result then
    let tokens : Option OmniTokens :=
      if isSDKUsageShape (result.getD "usage") then
        let input := asNum ((result.getD "usage").getD "input_tokens")
        let output := asNum ((result.getD "usage").getD "output_tokens")
        some ⟨input, output, input + output⟩
      else none
    { totalCostUsd := some (asNum (result.getD "total_cost_usd")),
      durationMs := some (asNum (result.getD "duration_ms")),
      numTurns := some (asNum (result.getD "num_turns")),
      tokens := tokens }
  else {}

/-! ### ClaudeStream (`provider-claude/src/stream.ts`) -/

/-- The JS `Array.prototype.join` treatment of one element: `null` and
`undefined` become `""`, anything else is string-coerced. -/
def joinElem : JSVal → String
  | .vnull => ""
  | .vundef => ""
  | v => jsToString v

/-- `collectText` (identical in `provider-claude/src/stream.ts` and the
OpenCode message mapper): the texts of all `text` content blocks across
all messages, in message order then block order, joined with `""`. -/
def collectText (messages : List OmniMessage) : String :=
  String.join ((messages.foldl (fun parts msg =>
    msg.content.foldl (fun parts block =>
      match block with
      | .text t => parts ++ [t]
      | _ => parts) parts) []).map joinElem)

/-- `hasStructuredOutput`. -/
def hasStructuredOutput (msg : JSVal) : Bool :=
  isObjectJS msg && msg.hasKey "structured_output"

/-- The `SDKMessage` union consumed by `ClaudeStream`, typed as the
vendor SDK declares it: `stream_event` carries the raw Anthropic event
(typed `unknown` downstream), `assistant` carries the `BetaMessage`
payload (accessed structurally), `result` carries the typed
`session_id`/`is_error`/`subtype` fields plus the whole message object
(`raw`) for the structural accesses of `mapResultUsage` and
`hasStructuredOutput`, and `other` covers the `user`/`system`/...
messages that have no OmniEvent mapping. -/
inductive SDKMessage where
  | stream_event (session_id : String) (event : JSVal)
  | assistant (session_id : String) (uuid : String) (message : JSVal)
  | result (session_id : String) (is_error : Bool) (subtype : String) (raw : JSVal)
  | other (session_id : Option String)
  deriving Repr, DecidableEq

/-- `extractSessionId`. -/
def extractSessionId : SDKMessage → Option String
  | .stream_event sid _ => if 0 < sid.length then some sid else none
  | .assistant sid _ _ => if 0 < sid.length then some sid else none
  | .result sid _ _ _ => if 0 < sid.length then some sid else none
  | .other (some sid) => if 0 < sid.length then some sid else none
  | .other none => none

/-- `mapResultError` (the usage payload only enters the unmodelled `raw`
field of the error). -/
def mapResultError (subtype : String) : JsErr :=
  if subtype = "error_max_budget_usd" then
    .omniError "BudgetExceededError" "claude" .BUDGET_EXCEEDED "Budget limit exceeded"
  else if subtype = "error_max_turns" then
    .omniError "OmniAgentError" "claude" .TURN_LIMIT "Maximum number of turns reached"
  else
    .omniError "OmniAgentError" "claude" .PROVIDER_ERROR
      ("Agent execution failed: " ++ subtype)

/-- The mutable fields of a `ClaudeStream`.  `queryClosed` models the
effect of `this._query.close()` / `this._query.return()` on the native
generator. -/
structure ClaudeStreamState where
  sessionId : Option String := none
  messages : List OmniMessage := []
  result : Option PromptResult := none
  done : Bool := false
  aborted : Bool := false
  iterating : Bool := false
  queryClosed : Bool := false
  deriving Repr, DecidableEq

/-- The constructor: `some true` models an external `AbortSignal` that is
already aborted (the query is closed and the stream marked
aborted/done); `some false` models a live signal (its one-shot listener
is the `claudeAbort` transition); `none` models no signal. -/
def claudeNew (externalSignalAborted : Option Bool) : ClaudeStreamState :=
  match externalSignalAborted with
  | some true => { aborted := true, done := true, queryClosed := true }
  | _ => {}

/-- The usage error thrown on a second iteration attempt. -/
def claudeIterateTwiceError : JsErr :=
  .omniError "OmniAgentError" "claude" .PROVIDER_ERROR
    "ClaudeStream can only be iterated once"

/-- One pass of the `for await` body for one `SDKMessage` (the abort
check at the top of the body lives in `claudeLoop`). -/
def claudeStep (jsonParse : String → Option JSVal) (st : ClaudeStreamState)
    (ms : EventMapperState) (m : SDKMessage) :
    Except JsErr (List OmniEvent × ClaudeStreamState × EventMapperState) :=
  let st :=
    if st.sessionId = none then
      match extractSessionId m with
      | some sid => { st with sessionId := some sid }
      | none => st
    else st
  match m with
  | .stream_event _ ev => do
    let (evs, ms') ← mapStreamEvent jsonParse ev ms
    .ok (evs, st, ms')
  | .assistant _ uuid message => do
    let omniMessage ← mapAssistantMessage message uuid
    .ok ([.message_end omniMessage],
      { st with messages := st.messages ++ [omniMessage] }, ms)
  | .result session_id is_error subtype raw =>
    let usage := mapResultUsage raw
    let st :=
      if st.sessionId = none then { st with sessionId := some session_id } else st
    if is_error then
      .ok ([.turn_end (some usage), .error (mapResultError subtype)], st, ms)
    else
      let r : PromptResult := {
        sessionId := st.sessionId.getD "",
        messages := st.messages,
        text := collectText st.messages,
        isError := false,
        structuredOutput :=
          if hasStructuredOutput raw then some (raw.getD "structured_output") else none,
        usage := usage }
      .ok ([.turn_end (some usage)], { st with result := some r }, ms)
  | .other _ => .ok ([], st, ms)

/-- The `for await` loop of the iterator.  A thrown error propagates and
skips the trailing `this._done = true` (there is no `finally`), so the
state at the throw point is lost to the caller, matching the source. -/
def claudeLoop (jsonParse : String → Option JSVal) (st : ClaudeStreamState)
    (ms : EventMapperState) :
    List SDKMessage → List OmniEvent × Except JsErr ClaudeStreamState
  | [] => ([], .ok { st with done := true })
  | m :: rest =>
    if st.aborted then ([], .ok { st with done := true })
    else
      match claudeStep jsonParse st ms m with
      | .error e => ([], .error e)
      | .ok (evs, st', ms') =>
        let (evs', r) := claudeLoop jsonParse st' ms' rest
        (evs ++ evs', r)

/-- A full run of `[Symbol.asyncIterator]` over the raw message sequence
`msgs`: the single-iteration guard, the synthetic `turn_start`, then the
loop with a fresh mapper state.  Returns the events yielded (also when a
later error cuts the run short) and the final state or thrown error. -/
def claudeIterate (jsonParse : String → Option JSVal) (st : ClaudeStreamState)
    (msgs : List SDKMessage) : List OmniEvent × Except JsErr ClaudeStreamState :=
  if st.iterating then ([], .error claudeIterateTwiceError)
  else
    let (evs, r) := claudeLoop jsonParse { st with iterating := true }
      createEventMapperState msgs
    (.turn_start :: evs, r)

/-- `ClaudeStream.result()`: returns the cached result if set; drains via
a full iteration only when iteration has neither finished nor started;
then checks abort and result presence.  `msgs` is the not-yet-consumed
raw message sequence of the underlying query. -/
def claudeResult (jsonParse : String → Option JSVal) (st : ClaudeStreamState)
    (msgs : List SDKMessage) : Except JsErr (PromptResult × ClaudeStreamState) :=
  match st.result with
  | some r => .ok (r, st)
  | none =>
    let drained : Except JsErr ClaudeStreamState :=
      if ¬ st.done ∧ ¬ st.iterating then (claudeIterate jsonParse st msgs).2
      else .ok st
    match drained with
    | .error e => .error e
    | .ok st' =>
      if st'.aborted then
        .error (.omniError "OmniAgentError" "claude" .ABORT
          "Stream was aborted before a result was received")
      else
        match st'.result with
        | none =>
          .error (.omniError "OmniAgentError" "claude" .PROVIDER_ERROR
            "Stream ended without a result message")
        | some r => .ok (r, st')

/-- `ClaudeStream.abort()`: a no-op when already aborted, otherwise sets
the flag, closes the native query and marks the stream done. -/
def claudeAbort (st : ClaudeStreamState) : ClaudeStreamState :=
  if st.aborted then st
  else { st with aborted := true, queryClosed := true, done := true }

end Claude

/-! ## OpenCode provider: event/message mappers and `OpenCodeStream`

The SSE events arrive from a global feed and the mapper guards its input
with `isObject` checks, so the whole mapper is embedded over `JSVal`. -/

namespace OpenCode

open JSVal

/-- `isEventWithSessionId` + `getEventSessionId`: the checked `sessionID`
string of an event, when present. -/
def getEventSessionId (event : JSVal) : Option String :=
  if isObjectJS event then
    match event.getD "sessionID" with
    | .vstr s => some s
    | _ => none
  else none

/-- `isTerminalOpenCodeEvent`: reads `event.type` without an object
guard, so it throws on `null`/`undefined`. -/
def isTerminalOpenCodeEvent (event : JSVal) : Except JsErr Bool := do
  let ty ← event.get "type"
  .ok (ty = .vstr "session.idle" || ty = .vstr "session.error")

/-- `mapPart` (message mapper): one part to at most one content block. -/
def mapPart (part : JSVal) : Option OmniContentBlock :=
  if ¬ isObjectJS part then none
  else
    match part.getD "type" with
    | .vstr "text" =>
      if (part.getD "text").isStr then some (.text (part.getD "text")) else none
    | .vstr "tool" =>
      if (part.getD "toolName").isStr ∧ (part.getD "toolID").isStr then
        -- the completed/error and pending/running branches build the
        -- same tool_use block
        some (.tool_use (part.getD "toolName").asStr (part.getD "toolID").asStr
          (part.getD "input"))
      else none
    | .vstr "reasoning" =>
      if (part.getD "text").isStr then some (.reasoning (part.getD "text").asStr)
      else none
    | _ => none

/-- `mapPartToBlocks`: tool parts in completed/error state produce a
`tool_use` plus a `tool_result` block. -/
def mapPartToBlocks (part : JSVal) : List OmniContentBlock :=
  if ¬ isObjectJS part then []
  else if part.getD "type" = .vstr "tool" ∧ (part.getD "toolName").isStr ∧
      (part.getD "toolID").isStr then
    let toolUse : OmniContentBlock :=
      .tool_use (part.getD "toolName").asStr (part.getD "toolID").asStr
        (part.getD "input")
    if part.getD "state" = .vstr "completed" then
      [toolUse, .tool_result (part.getD "toolID").asStr (part.getD "output") false]
    else if part.getD "state" = .vstr "error" then
      [toolUse, .tool_result (part.getD "toolID").asStr (part.getD "error") true]
    else [toolUse]
  else
    match mapPart part with
    | some b => [b]
    | none => []

/-- `mapMessage`: reads `message.parts` (throwing on `null`/`undefined`
like the source's property access), then copies `id` unchecked and
narrows `role`. -/
def mapMessage (message : JSVal) : Except JsErr OmniMessage := do
  let partsv ← message.get "parts"
  let content : List OmniContentBlock :=
    match partsv with
    | .varr parts => parts.foldl (fun acc part => acc ++ mapPartToBlocks part) []
    | _ => []
  let idv ← message.get "id"
  let rolev ← message.get "role"
  .ok { id := idv, role := if rolev = .vstr "user" then "user" else "assistant",
        content := content }

/-- `mapTextPartEvent`. -/
def mapTextPartEvent (part : JSVal) : List OmniEvent :=
  match part.getD "delta" with
  | .vstr s => if 0 < s.length then [.text_delta (.vstr s)] else []
  | _ => []

/-- `mapToolPartEvent` (tool name/id copied without a string check). -/
def mapToolPartEvent (part : JSVal) : List OmniEvent :=
  if part.getD "state" = .vstr "running" then
    [.tool_start (part.getD "toolName") (part.getD "toolID") (some (part.getD "input"))]
  else if part.getD "state" = .vstr "completed" then
    [.tool_end (part.getD "toolID") (part.getD "output") false]
  else if part.getD "state" = .vstr "error" then
    [.tool_end (part.getD "toolID") (part.getD "error") true]
  else []

/-- `mapReasoningPartEvent`. -/
def mapReasoningPartEvent (part : JSVal) : List OmniEvent :=
  match part.getD "delta" with
  | .vstr s => if 0 < s.length then [.text_delta (.vstr s)] else []
  | _ => []

/-- The message of `new Error(x)`: `""` for `undefined`, otherwise the
JS string coercion of `x`. -/
def errMessageOf (v : JSVal) : String :=
  match v with
  | .vundef => ""
  | v => jsToString v

/-- `mapOpenCodeEvent`: one SSE event to zero or more canonical events. -/
def mapOpenCodeEvent (event : JSVal) : Except JsErr (List OmniEvent) :=
  if ¬ isObjectJS event then .ok []
  else if event.getD "type" = .vstr "message.part.updated" then
    let part := event.getD "part"
    if ¬ (isObjectJS part ∧ (part.getD "type").isStr) then .ok []
    else
      match part.getD "type" with
      | .vstr "text" => .ok (mapTextPartEvent part)
      | .vstr "tool" => .ok (mapToolPartEvent part)
      | .vstr "reasoning" => .ok (mapReasoningPartEvent part)
      | _ => .ok []
  else if event.getD "type" = .vstr "message.updated" then do
    let omniMessage ← mapMessage (event.getD "message")
    .ok [.message_end omniMessage]
  else if event.getD "type" = .vstr "session.idle" then
    .ok [.turn_end none]
  else if event.getD "type" = .vstr "session.error" then
    .ok [.error (.omniError "OmniAgentError" "opencode" .PROVIDER_ERROR
      (errMessageOf (event.getD "error")))]
  else .ok []

/-! ### OpenCodeStream (`provider-opencode/src/stream.ts`)

The SSE subscription and the fire-and-forget `triggerPrompt()` perform
no modelled state change (prompt failures surface only as `session.error`
SSE events, which arrive in the raw event list). -/

/-- The mutable fields of an `OpenCodeStream`. -/
structure OpenCodeStreamState where
  sessionId : String
  messages : List OmniMessage := []
  result : Option PromptResult := none
  lastUsage : Option OmniUsage := none
  isError : Bool := false
  done : Bool := false
  aborted : Bool := false
  iterating : Bool := false
  deriving Repr, DecidableEq

/-- The constructor: an already-aborted external signal marks the stream
aborted and done immediately. -/
def ocNew (sessionId : String) (externalSignalAborted : Option Bool) :
    OpenCodeStreamState :=
  match externalSignalAborted with
  | some true => { sessionId := sessionId, aborted := true, done := true }
  | _ => { sessionId := sessionId }

/-- The usage error thrown on a second iteration attempt. -/
def ocIterateTwiceError : JsErr :=
  .omniError "OmniAgentError" "opencode" .PROVIDER_ERROR
    "OpenCodeStream can only be iterated once"

/-- Per-canonical-event accumulation inside the iteration loop. -/
def ocAccumulate (st : OpenCodeStreamState) : OmniEvent → OpenCodeStreamState
  | .message_end msg => { st with messages := st.messages ++ [msg] }
  | .turn_end usage => { st with lastUsage := usage }
  | .error _ => { st with isError := true }
  | _ => st

/-- One pass of the SSE loop body for one raw event: session filtering,
mapping, accumulation, and terminal detection (whose `event.type` read
can throw).  The returned flag requests the `break`. -/
def ocStepEvent (st : OpenCodeStreamState) (event : JSVal) :
    Except JsErr (List OmniEvent × OpenCodeStreamState × Bool) :=
  match getEventSessionId event with
  | some sid =>
    if sid ≠ st.sessionId then .ok ([], st, false)
    else do
      let evs ← mapOpenCodeEvent event
      let st' := evs.foldl ocAccumulate st
      let isTerm ← isTerminalOpenCodeEvent event
      .ok (evs, st', isTerm)
  | none => do
    let evs ← mapOpenCodeEvent event
    let st' := evs.foldl ocAccumulate st
    let isTerm ← isTerminalOpenCodeEvent event
    .ok (evs, st', isTerm)

/-- The SSE `for await` loop (no `finally`: a thrown error skips the
result synthesis and the `done` flag, as in the source). -/
def ocLoop (st : OpenCodeStreamState) :
    List JSVal → List OmniEvent × Except JsErr OpenCodeStreamState
  | [] => ([], .ok st)
  | e :: rest =>
    if st.aborted then ([], .ok st)
    else
      match ocStepEvent st e with
      | .error err => ([], .error err)
      | .ok (evs, st', true) => (evs, .ok st')
      | .ok (evs, st', false) =>
        let (evs', r) := ocLoop st' rest
        (evs ++ evs', r)

/-- A full run of `[Symbol.asyncIterator]` over the session-relevant SSE
event list: guard, early return when already aborted (yielding nothing),
synthetic `turn_start`, the loop, then result synthesis and `done`. -/
def ocIterate (st : OpenCodeStreamState) (events : List JSVal) :
    List OmniEvent × Except JsErr OpenCodeStreamState :=
  if st.iterating then ([], .error ocIterateTwiceError)
  else
    let st := { st with iterating := true }
    if st.aborted then ([], .ok st)
    else
      let (evs, r) := ocLoop st events
      match r with
      | .error e => (.turn_start :: evs, .error e)
      | .ok st' =>
        let st'' :=
          if ¬ st'.aborted ∧ ¬ st'.isError then
            { st' with result := some {
                sessionId := st'.sessionId,
                messages := st'.messages,
                text := Claude.collectText st'.messages,
                isError := false,
                usage := st'.lastUsage.getD {} } }
          else st'
        (.turn_start :: evs, .ok { st'' with done := true })

/-- `OpenCodeStream.result()`. -/
def ocResult (st : OpenCodeStreamState) (events : List JSVal) :
    Except JsErr (PromptResult × OpenCodeStreamState) :=
  match st.result with
  | some r => .ok (r, st)
  | none =>
    let drained : Except JsErr OpenCodeStreamState :=
      if ¬ st.done ∧ ¬ st.iterating then (ocIterate st events).2
      else .ok st
    match drained with
    | .error e => .error e
    | .ok st' =>
      if st'.aborted then
        .error (.omniError "OmniAgentError" "opencode" .ABORT
          "Stream was aborted before a result was received")
      else if st'.isError then
        .error (.omniError "OmniAgentError" "opencode" .PROVIDER_ERROR
          "Session ended with an error")
      else
        match st'.result with
        | none =>
          .error (.omniError "OmniAgentError" "opencode" .PROVIDER_ERROR
            "Stream ended without a result")
        | some r => .ok (r, st')

/-- `OpenCodeStream.abort()`. -/
def ocAbort (st : OpenCodeStreamState) : OpenCodeStreamState :=
  if st.aborted then st
  else { st with aborted := true, done := true }

end OpenCode

/-! ## Codex provider: event mapper and `CodexStream`

`CodexStream` consumes the vendor-typed `AsyncGenerator<CodexEvent>`, so
the stream model works on a typed `CodexEvent`.  The mapper is embedded
twice: `mapCodexEvent` on the typed domain (used by the stream model) and
`mapCodexEventRaw` on `JSVal` (the same function's runtime behavior on
arbitrary raw values: unlike the other two mappers it begins with an
unguarded `event.type` read). -/

namespace Codex

open JSVal

/-- Token usage on `turn.completed` events. -/
structure CodexUsage where
  inputTokens : Option Int := none
  outputTokens : Option Int := none
  totalTokens : Option Int := none
  deriving Repr, DecidableEq

/-- A `ThreadItem` as the code accesses it: a `type` tag plus the
optional fields read by the mappers. -/
structure ThreadItem where
  id : String
  type : String
  text : Option String := none
  content : Option String := none
  toolName : Option String := none
  toolCallId : Option String := none
  input : JSVal := .vundef
  output : JSVal := .vundef
  isError : Option Bool := none
  path : Option String := none
  operation : Option String := none
  diff : Option String := none
  deriving Repr, DecidableEq

/-- The `CodexEvent` union as consumed: `item.started`, `item.completed`,
`item/agentMessage/delta`, `turn.completed`, and any other event type. -/
inductive CodexEvent where
  | itemStarted (item : ThreadItem)
  | itemCompleted (item : ThreadItem)
  | agentMessageDelta (delta : String)
  | turnCompleted (usage : Option CodexUsage)
  | otherEvent (type : String)
  deriving Repr, DecidableEq

/-- `isAgentMessageItem`. -/
def isAgentMessageItem (item : ThreadItem) : Bool :=
  item.type = "agentMessage" || item.type = "agent_message"

/-- `isToolItem`. -/
def isToolItem (item : ThreadItem) : Bool :=
  item.type = "commandExecution" || item.type = "command_execution" ||
    item.type = "mcpToolCall" || item.type = "mcp_tool_call"

/-- `isFileChangeItem`. -/
def isFileChangeItem (item : ThreadItem) : Bool :=
  item.type = "fileChange" || item.type = "file_change"

/-- `agentMessageText`: `item.text ?? item.content ?? ""`. -/
def agentMessageText (item : ThreadItem) : String :=
  (item.text.or item.content).getD ""

/-- `buildAgentMessage`. -/
def buildAgentMessage (item : ThreadItem) : OmniMessage :=
  let text := agentMessageText item
  { id := .vstr item.id, role := "assistant",
    content := if 0 < text.length then [.text (.vstr text)] else [] }

/-- `resolveToolName` (event mapper variant, with the per-type
fallbacks). -/
def resolveToolName (item : ThreadItem) : String :=
  match item.toolName with
  | some n =>
    if 0 < n.length then n
    else resolveFallback item
  | none => resolveFallback item
where
  /-- The fallback chain for items without a usable `toolName`. -/
  resolveFallback (item : ThreadItem) : String :=
    if item.type = "commandExecution" ∨ item.type = "command_execution" then
      "commandExecution"
    else if item.type = "mcpToolCall" ∨ item.type = "mcp_tool_call" then
      "mcpToolCall"
    else if item.type = "fileChange" ∨ item.type = "file_change" then
      "fileChange"
    else item.type

/-- `resolveToolId`: the explicit `toolCallId` or the
`codex:{itemId}` composite. -/
def resolveToolId (item : ThreadItem) : String :=
  match item.toolCallId with
  | some tc => if 0 < tc.length then tc else "codex:" ++ item.id
  | none => "codex:" ++ item.id

/-- The JS object the source builds for a file-change `tool_end` output
(an `OmniContentBlock`-shaped object literal). -/
def fileChangeOutput (path : Option String) (operation : Option String)
    (diff : Option String) : JSVal :=
  .vobj [("type", .vstr "file_change"),
         ("path", .vstr (path.getD "")),
         ("operation", .vstr (operation.getD "edit")),
         ("diff", match diff with | some d => .vstr d | none => .vundef)]

/-- `mapItemStarted`. -/
def mapItemStarted (item : ThreadItem) : List OmniEvent :=
  if isAgentMessageItem item then [.message_start "assistant"]
  else if isToolItem item || isFileChangeItem item then
    [.tool_start (.vstr (resolveToolName item)) (.vstr (resolveToolId item))
      (some item.input)]
  else []

/-- `mapItemCompleted`: completed agent messages synthesize one
`text_delta` (for the full text) followed by `message_end`; tool and
file-change items emit `tool_end`. -/
def mapItemCompleted (item : ThreadItem) : List OmniEvent :=
  if isAgentMessageItem item then
    let message := buildAgentMessage item
    let text := agentMessageText item
    (if 0 < text.length then [.text_delta (.vstr text)] else []) ++
      [.message_end message]
  else if isToolItem item then
    [.tool_end (.vstr (resolveToolId item)) item.output (item.isError = some true)]
  else if isFileChangeItem item then
    [.tool_end (.vstr (resolveToolId item))
      (fileChangeOutput item.path item.operation item.diff)
      (item.isError = some true)]
  else []

/-- `mapTurnCompleted`. -/
def mapTurnCompleted (usage : Option CodexUsage) : List OmniEvent :=
  match usage with
  | none => [.turn_end none]
  | some u =>
    let inputTokens := u.inputTokens.getD 0
    let outputTokens := u.outputTokens.getD 0
    let totalTokens := u.totalTokens.getD (inputTokens + outputTokens)
    [.turn_end (some { tokens := some ⟨inputTokens, outputTokens, totalTokens⟩ })]

/-- `mapCodexEvent` on the vendor-typed domain. -/
def mapCodexEvent : CodexEvent → List OmniEvent
  | .itemStarted item => mapItemStarted item
  | .itemCompleted item => mapItemCompleted item
  | .agentMessageDelta delta => [.text_delta (.vstr delta)]
  | .turnCompleted usage => mapTurnCompleted usage
  | .otherEvent _ => []

/-! ### `mapCodexEvent` on raw runtime values -/

/-- `x !== undefined && x.length > 0`: short-circuits on `undefined`,
throws on `null`, is `false` when `.length` is not a number. -/
def definedWithPosLength (v : JSVal) : Except JsErr Bool :=
  match v with
  | .vundef => .ok false
  | .vnull => .error (.typeError "Cannot read properties of null (reading length)")
  | .vstr s => .ok (0 < s.length)
  | .varr xs => .ok (0 < xs.length)
  | _ => .ok false

/-- `v ?? w` (nullish coalescing). -/
def nullishD (v w : JSVal) : JSVal :=
  match v with
  | .vnull => w
  | .vundef => w
  | v => v

/-- `resolveToolName` on a raw item value. -/
def resolveToolNameRaw (item : JSVal) (ty : JSVal) : Except JsErr JSVal := do
  let tn := item.getD "toolName"
  let pos ← definedWithPosLength tn
  if pos then .ok tn
  else if ty = .vstr "commandExecution" ∨ ty = .vstr "command_execution" then
    .ok (.vstr "commandExecution")
  else if ty = .vstr "mcpToolCall" ∨ ty = .vstr "mcp_tool_call" then
    .ok (.vstr "mcpToolCall")
  else if ty = .vstr "fileChange" ∨ ty = .vstr "file_change" then
    .ok (.vstr "fileChange")
  else .ok ty

/-- `resolveToolId` on a raw item value (`${PROVIDER}:${item.id}`
string-coerces the id). -/
def resolveToolIdRaw (item : JSVal) : Except JsErr JSVal := do
  let tc := item.getD "toolCallId"
  let pos ← definedWithPosLength tc
  if pos then .ok tc
  else .ok (.vstr ("codex:" ++ jsToString (item.getD "id")))

/-- `.length > 0` on a non-nullish value (`undefined > 0` is `false`). -/
def posLengthOf (v : JSVal) : Bool :=
  match v with
  | .vstr s => 0 < s.length
  | .varr xs => 0 < xs.length
  | _ => false

/-- `mapItemStarted` on a raw item value (the `item.type` read throws on
`null`/`undefined` items). -/
def mapItemStartedRaw (item : JSVal) : Except JsErr (List OmniEvent) := do
  let ty ← item.get "type"
  if ty = .vstr "agentMessage" ∨ ty = .vstr "agent_message" then
    .ok [.message_start "assistant"]
  else if ty = .vstr "commandExecution" ∨ ty = .vstr "command_execution" ∨
      ty = .vstr "mcpToolCall" ∨ ty = .vstr "mcp_tool_call" ∨
      ty = .vstr "fileChange" ∨ ty = .vstr "file_change" then do
    let toolName ← resolveToolNameRaw item ty
    let toolId ← resolveToolIdRaw item
    .ok [.tool_start toolName toolId (some (item.getD "input"))]
  else .ok []

/-- `mapItemCompleted` on a raw item value. -/
def mapItemCompletedRaw (item : JSVal) : Except JsErr (List OmniEvent) := do
  let ty ← item.get "type"
  if ty = .vstr "agentMessage" ∨ ty = .vstr "agent_message" then
    -- agentMessageText: item.text ?? item.content ?? ""
    let textv := nullishD (item.getD "text") (nullishD (item.getD "content") (.vstr ""))
    let message : OmniMessage :=
      { id := item.getD "id", role := "assistant",
        content := if posLengthOf textv then [.text textv] else [] }
    .ok ((if posLengthOf textv then [.text_delta textv] else []) ++
      [.message_end message])
  else if ty = .vstr "commandExecution" ∨ ty = .vstr "command_execution" ∨
      ty = .vstr "mcpToolCall" ∨ ty = .vstr "mcp_tool_call" then do
    let toolId ← resolveToolIdRaw item
    .ok [.tool_end toolId (item.getD "output") (item.getD "isError" = .vbool true)]
  else if ty = .vstr "fileChange" ∨ ty = .vstr "file_change" then do
    let toolId ← resolveToolIdRaw item
    let fileOutput : JSVal :=
      .vobj [("type", .vstr "file_change"),
             ("path", nullishD (item.getD "path") (.vstr "")),
             ("operation", nullishD (item.getD "operation") (.vstr "edit")),
             ("diff", item.getD "diff")]
    .ok [.tool_end toolId fileOutput (item.getD "isError" = .vbool true)]
  else .ok []

/-- `mapTurnCompleted` on a raw usage value.  Token fields that are not
numbers are modelled as `0` (the vendor type declares numbers; JS numeric
coercion of other values is out of scope). -/
def mapTurnCompletedRaw (usage : JSVal) : Except JsErr (List OmniEvent) :=
  match usage with
  | .vundef => .ok [.turn_end none]
  | .vnull => .error (.typeError "Cannot read properties of null (reading inputTokens)")
  | u =>
    let inputTokens := asNum (nullishD (u.getD "inputTokens") (.vnum 0))
    let outputTokens := asNum (nullishD (u.getD "outputTokens") (.vnum 0))
    let totalTokens :=
      asNum (nullishD (u.getD "totalTokens") (.vnum (inputTokens + outputTokens)))
    .ok [.turn_end (some { tokens := some ⟨inputTokens, outputTokens, totalTokens⟩ })]

/-- `mapCodexEvent` as it behaves on an arbitrary raw runtime value: the
first thing it does is read `event.type`, which throws a `TypeError` on
`null`/`undefined` input. -/
def mapCodexEventRaw (event : JSVal) : Except JsErr (List OmniEvent) := do
  let ty ← event.get "type"
  if ty = .vstr "item.started" then
    mapItemStartedRaw (event.getD "item")
  else if ty = .vstr "item.completed" then
    mapItemCompletedRaw (event.getD "item")
  else if ty = .vstr "item/agentMessage/delta" then
    .ok [.text_delta (event.getD "delta")]
  else if ty = .vstr "turn.completed" then
    mapTurnCompletedRaw (event.getD "usage")
  else .ok []

/-! ### CodexStream (`CodexStream` in the Codex provider) -/

/-- The mutable fields of a `CodexStream`. -/
structure CodexStreamState where
  sessionId : String
  aborted : Bool := false
  done : Bool := false
  messages : List OmniMessage := []
  lastUsage : Option OmniUsage := none
  finalText : String := ""
  isError : Bool := false
  pendingTextParts : List String := []
  deriving Repr, DecidableEq

/-- The constructor. -/
def codexNew (sessionId : String) : CodexStreamState :=
  { sessionId := sessionId }

/-- `#trackAccumulationState`: delta fragments accumulate; a completed
agent message overwrites `finalText` with `item.text ?? item.content ??`
the joined pending fragments, then clears the fragments. -/
def trackAccumulationState (st : CodexStreamState) : CodexEvent → CodexStreamState
  | .agentMessageDelta delta =>
    { st with pendingTextParts := st.pendingTextParts ++ [delta] }
  | .itemCompleted item =>
    if item.type = "agentMessage" ∨ item.type = "agent_message" then
      { st with
          finalText := (item.text.or item.content).getD (String.join st.pendingTextParts),
          pendingTextParts := [] }
    else st
  | _ => st

/-- Per-canonical-event accumulation in the iteration loop (`turn_end`
updates usage only when its usage is defined). -/
def codexAccumulate (st : CodexStreamState) : OmniEvent → CodexStreamState
  | .message_end msg => { st with messages := st.messages ++ [msg] }
  | .turn_end (some u) => { st with lastUsage := some u }
  | _ => st

/-- One pass of the loop body for one raw event. -/
def codexStep (st : CodexStreamState) (ev : CodexEvent) :
    List OmniEvent × CodexStreamState :=
  let st := trackAccumulationState st ev
  let evs := mapCodexEvent ev
  (evs, evs.foldl codexAccumulate st)

/-- The `try`-wrapped `for await` loop.  `srcErr` models the underlying
vendor generator rejecting after yielding `events`; the returned
`Option JsErr` is the error reaching the `catch` clause (none when the
loop ended naturally or broke on abort before pulling the rejection). -/
def codexLoop (st : CodexStreamState) :
    List CodexEvent → Option JsErr → List OmniEvent × CodexStreamState × Option JsErr
  | [], srcErr => ([], st, srcErr)
  | ev :: rest, srcErr =>
    if st.aborted then ([], st, none)
    else
      let (evs, st') := codexStep st ev
      let (evs', st'', r) := codexLoop st' rest srcErr
      (evs ++ evs', st'', r)

/-- The `catch` clause's wrapping: an `OmniAgentError` passes through,
anything else is wrapped with code `PROVIDER_ERROR`. -/
def wrapCodexError (e : JsErr) : JsErr :=
  if e.isOmniAgentError then e
  else .omniError "OmniAgentError" "codex" .PROVIDER_ERROR e.message

/-- A full run of `[Symbol.asyncIterator]`: returns immediately (no
guard error, no events) when `done`; otherwise yields `turn_start`, runs
the loop, converts a caught error into a trailing in-band `error` event
(setting the error flag), and finally marks the stream done. -/
def codexIterate (st : CodexStreamState) (events : List CodexEvent)
    (srcErr : Option JsErr) : List OmniEvent × CodexStreamState :=
  if st.done then ([], st)
  else
    let (evs, st', caught) := codexLoop st events srcErr
    match caught with
    | none => (.turn_start :: evs, { st' with done := true })
    | some e =>
      (.turn_start :: (evs ++ [.error (wrapCodexError e)]),
       { st' with isError := true, done := true })

/-- `CodexStream.result()`: drains whenever not yet done, throws
`AbortError` when aborted, and otherwise synthesizes the result from the
accumulated state (with `isError` as a flag, not a thrown error). -/
def codexResult (st : CodexStreamState) (events : List CodexEvent)
    (srcErr : Option JsErr) : Except JsErr (PromptResult × CodexStreamState) :=
  let st' := if ¬ st.done then (codexIterate st events srcErr).2 else st
  if st'.aborted then
    .error (.omniError "AbortError" "codex" .ABORT "Operation was aborted")
  else
    .ok ({ sessionId := st'.sessionId,
           messages := st'.messages,
           text := st'.finalText,
           isError := st'.isError,
           usage := st'.lastUsage.getD {} }, st')

/-- `CodexStream.abort()`: sets the flag unconditionally (the vendor SDK
exposes no cancellation handle). -/
def codexAbort (st : CodexStreamState) : CodexStreamState :=
  { st with aborted := true }

end Codex

/-! ## Fallback dispatcher / registry (`core/src/agent-manager.ts`)

The registry is generic over the backend handle type `A`.  The
operations passed to `withFallback`/`createSession` are modelled as
`fn : A → String → Except JsErr T`: a deterministic outcome per
`(agent, name)` attempt. -/

namespace Manager

/-- `AgentNotFoundError`. -/
def agentNotFoundError (agentName : String) : JsErr :=
  .omniError "AgentNotFoundError" "manager" .CONFIGURATION
    ("Agent not found: \"" ++ agentName ++ "\"")

/-- `NoDefaultAgentError`. -/
def noDefaultAgentError : JsErr :=
  .omniError "NoDefaultAgentError" "manager" .CONFIGURATION
    "No default agent set. Register an agent first or set defaultAgentName."

/-- `Map.get` on the `_agents` map. -/
def agentsGet {A : Type} : List (String × A) → String → Option A
  | [], _ => none
  | (k, v) :: rest, key => if k = key then some v else agentsGet rest key

/-- `Map.set` on the `_agents` map. -/
def agentsSet {A : Type} : List (String × A) → String → A → List (String × A)
  | [], key, v => [(key, v)]
  | (k, w) :: rest, key, v =>
    if k = key then (k, v) :: rest else (k, w) :: agentsSet rest key v

/-- `Map.delete` on the `_agents` map. -/
def agentsDelete {A : Type} : List (String × A) → String → List (String × A)
  | [], _ => []
  | (k, w) :: rest, key =>
    if k = key then rest else (k, w) :: agentsDelete rest key

/-- The mutable registry fields of an `AgentManager`. -/
structure AgentManagerState (A : Type) where
  agents : List (String × A) := []
  order : List String := []
  defaultAgentName : Option String := none
  deriving Repr, DecidableEq

/-- `register`: stores the agent, appends the name to `_order` unless
already present, and auto-assigns the default when unset. -/
def register {A : Type} (st : AgentManagerState A) (name : String) (agent : A) :
    AgentManagerState A :=
  { agents := agentsSet st.agents name agent,
    order := if name ∈ st.order then st.order else st.order ++ [name],
    defaultAgentName :=
      if st.defaultAgentName = none then some name else st.defaultAgentName }

/-- `unregister`: returns `false` and leaves the state unchanged when the
name is absent; otherwise removes it from the map and the order array and
reassigns the default to `_order[0]` when the removed name was the
default. -/
def unregister {A : Type} (st : AgentManagerState A) (name : String) :
    Bool × AgentManagerState A :=
  match agentsGet st.agents name with
  | none => (false, st)
  | some _ =>
    let order' := st.order.erase name
    (true,
      { agents := agentsDelete st.agents name,
        order := order',
        defaultAgentName :=
          if st.defaultAgentName = some name then order'.head?
          else st.defaultAgentName })

/-- `agentNames()` (a copy of `_order`). -/
def agentNames {A : Type} (st : AgentManagerState A) : List String :=
  st.order

/-- The `defaultAgentName` setter: throws `AgentNotFoundError` for an
unregistered name. -/
def setDefaultAgentName {A : Type} (st : AgentManagerState A) (name : String) :
    Except JsErr (AgentManagerState A) :=
  match agentsGet st.agents name with
  | none => .error (agentNotFoundError name)
  | some _ => .ok { st with defaultAgentName := some name }

/-- `defaultShouldFallback` (`FALLBACK_CODES.has(error.code)`); stated on
the whole error type, but only consulted for `OmniAgentError` instances,
which always carry a code. -/
def defaultShouldFallback (e : JsErr) : Bool :=
  e.code = some .PROVIDER_ERROR || e.code = some .NETWORK

/-- The attempt loop of `withFallback`, carrying the `failures`
accumulator.  Every error pushed into `failures` is already an `Error`
in this model, so the source's `new Error(String(err))` conversion for
non-`Error` throwables has no modelled effect. -/
def withFallbackGo {A T : Type} (agents : List (String × A))
    (shouldFallback : JsErr → Bool) (fn : A → String → Except JsErr T) :
    List String → List (String × JsErr) → Except JsErr T
  | [], failures => .error (.allAgentsFailed failures)
  | name :: rest, failures =>
    match agentsGet agents name with
    | none => withFallbackGo agents shouldFallback fn rest failures
    | some a =>
      match fn a name with
      | .ok v => .ok v
      | .error err =>
        if err.isOmniAgentError && ¬ shouldFallback err then .error err
        else withFallbackGo agents shouldFallback fn rest (failures ++ [(name, err)])

/-- `withFallback`: the name list defaults to registry insertion order
and the classifier defaults to `defaultShouldFallback`. -/
def withFallback {A T : Type} (agents : List (String × A))
    (registryOrder : List String) (configShouldFallback : Option (JsErr → Bool))
    (fn : A → String → Except JsErr T) (order : Option (List String)) :
    Except JsErr T :=
  withFallbackGo agents (configShouldFallback.getD defaultShouldFallback) fn
    (order.getD registryOrder) []

/-- The `fallback` block of `AgentManagerConfig`. -/
structure FallbackConfig where
  enabled : Bool
  order : Option (List String) := none
  shouldFallback : Option (JsErr → Bool) := none

/-- `getDefaultAgent()` followed by applying the operation: raises
`NoDefaultAgentError` with no default, `AgentNotFoundError` when the
default name is unregistered. -/
def runOnDefaultAgent {A T : Type} (st : AgentManagerState A)
    (fn : A → String → Except JsErr T) : Except JsErr T :=
  match st.defaultAgentName with
  | none => .error noDefaultAgentError
  | some name =>
    match agentsGet st.agents name with
    | none => .error (agentNotFoundError name)
    | some a => fn a name

/-- `createSession`: routes through `withFallback` exactly when the
fallback config is present and enabled, and otherwise delegates to the
default agent. -/
def createSession {A T : Type} (st : AgentManagerState A)
    (fallback : Option FallbackConfig) (fn : A → String → Except JsErr T) :
    Except JsErr T :=
  match fallback with
  | some f =>
    if f.enabled then withFallback st.agents st.order f.shouldFallback fn f.order
    else runOnDefaultAgent st fn
  | none => runOnDefaultAgent st fn

end Manager

/-! ## Generic lemmas -/

@[simp]
theorem except_ok_bind {ε α β : Type} (a : α) (f : α → Except ε β) :
    (Except.ok a : Except ε α) >>= f = f a := rfl

@[simp]
theorem except_error_bind {ε α β : Type} (e : ε) (f : α → Except ε β) :
    (Except.error e : Except ε α) >>= f = .error e := rfl

/-! ## Association-map lemmas for the tool-block accumulator -/

namespace Claude

@[simp]
theorem tbGet_tbSet_self (l : ToolBlockMap) (k : JSVal) (v : ToolBlockState) :
    tbGet (tbSet l k v) k = some v := by
  induction l with
  | nil => simp [tbSet, tbGet]
  | cons hd tl ih =>
    obtain ⟨k', v'⟩ := hd
    by_cases h : k' = k
    · simp [tbSet, tbGet, h]
    · simp [tbSet, tbGet, h, ih]

@[simp]
theorem tbUpdate_tbSet_self (l : ToolBlockMap) (k : JSVal) (v : ToolBlockState)
    (f : ToolBlockState → ToolBlockState) :
    tbUpdate (tbSet l k v) k f = tbSet l k (f v) := by
  induction l with
  | nil => simp [tbSet, tbUpdate]
  | cons hd tl ih =>
    obtain ⟨k', v'⟩ := hd
    by_cases h : k' = k
    · simp [tbSet, tbUpdate, h]
    · simp [tbSet, tbUpdate, h, ih]

@[simp]
theorem tbDelete_tbSet_self (l : ToolBlockMap) (k : JSVal) (v : ToolBlockState) :
    tbDelete (tbSet l k v) k = tbDelete l k := by
  induction l with
  | nil => simp [tbSet, tbDelete]
  | cons hd tl ih =>
    obtain ⟨k', v'⟩ := hd
    by_cases h : k' = k
    · simp [tbSet, tbDelete, h]
    · simp [tbSet, tbDelete, h, ih]

/-- Runs `mapStreamEvent` over a list of raw events with a shared state,
concatenating the emitted canonical events (the shape in which the
stream engine drives the mapper). -/
def runMapStreamEvents (jsonParse : String → Option JSVal) :
    List JSVal → EventMapperState → Except JsErr (List OmniEvent × EventMapperState)
  | [], st => .ok ([], st)
  | e :: rest, st =>
    match mapStreamEvent jsonParse e st with
    | .error err => .error err
    | .ok (evs, st') =>
      match runMapStreamEvents jsonParse rest st' with
      | .error err => .error err
      | .ok (evs', st'') => .ok (evs ++ evs', st'')

/-- A raw `content_block_start` event opening a tool-use block. -/
def cbStart (i : Int) (toolId toolName : String) : JSVal :=
  .vobj [("type", .vstr "content_block_start"), ("index", .vnum i),
         ("content_block", .vobj [("type", .vstr "tool_use"), ("id", .vstr toolId),
                                  ("name", .vstr toolName), ("input", .vobj [])])]

/-- A raw `content_block_delta` event carrying one JSON fragment. -/
def cbDelta (i : Int) (frag : String) : JSVal :=
  .vobj [("type", .vstr "content_block_delta"), ("index", .vnum i),
         ("delta", .vobj [("type", .vstr "input_json_delta"), ("partial_json", .vstr frag)])]

/-- A raw `content_block_stop` event. -/
def cbStop (i : Int) : JSVal :=
  .vobj [("type", .vstr "content_block_stop"), ("index", .vnum i)]

theorem mapStreamEvent_cbStart (jp : String → Option JSVal) (i : Int)
    (toolId toolName : String) (st : EventMapperState) :
    mapStreamEvent jp (cbStart i toolId toolName) st =
      .ok ([.tool_start (.vstr toolName) (.vstr toolId) none],
        ⟨tbSet st.toolBlocks (.vnum i) ⟨.vstr toolId, .vstr toolName, ""⟩⟩) := rfl

theorem mapStreamEvent_cbDelta (jp : String → Option JSVal) (i : Int)
    (frag : String) (st : EventMapperState) :
    mapStreamEvent jp (cbDelta i frag) st =
      .ok ([], ⟨tbUpdate st.toolBlocks (.vnum i)
        (fun ts => { ts with accumulatedJson := ts.accumulatedJson ++ frag })⟩) := rfl

/-- Feeding the `N` fragment deltas after the opening event appends all
fragments, in order, to the accumulator entry and emits nothing. -/
theorem runMapStreamEvents_deltas (jp : String → Option JSVal) (i : Int)
    (frags : List String) (l : ToolBlockMap) (tid tname : JSVal) (acc : String) :
    runMapStreamEvents jp (frags.map (cbDelta i)) ⟨tbSet l (.vnum i) ⟨tid, tname, acc⟩⟩ =
      .ok ([], ⟨tbSet l (.vnum i) ⟨tid, tname, frags.foldl (· ++ ·) acc⟩⟩) := by
  induction frags generalizing acc with
  | nil => simp [runMapStreamEvents]
  | cons f fs ih =>
    simp only [List.map_cons, runMapStreamEvents, mapStreamEvent_cbDelta,
      tbUpdate_tbSet_self, List.foldl_cons]
    simp [ih]

/-- Running a concatenation of raw event lists composes. -/
theorem runMapStreamEvents_append (jp : String → Option JSVal) (l1 l2 : List JSVal)
    (st : EventMapperState) :
    runMapStreamEvents jp (l1 ++ l2) st =
      match runMapStreamEvents jp l1 st with
      | .error e => .error e
      | .ok (evs, st') =>
        match runMapStreamEvents jp l2 st' with
        | .error e => .error e
        | .ok (evs', st'') => .ok (evs ++ evs', st'') := by
  induction l1 generalizing st with
  | nil =>
    simp only [List.nil_append, runMapStreamEvents]
    cases hl : runMapStreamEvents jp l2 st with
    | error e => rfl
    | ok p => rfl
  | cons e rest ih =>
    simp only [List.cons_append, runMapStreamEvents]
    cases hm : mapStreamEvent jp e st with
    | error err => rfl
    | ok p =>
      obtain ⟨evs, st'⟩ := p
      simp only [List.append_eq]
      rw [ih st']
      cases hr : runMapStreamEvents jp rest st' with
      | error err => rfl
      | ok q =>
        obtain ⟨evs', st''⟩ := q
        cases hl : runMapStreamEvents jp l2 st'' with
        | error err => simp [hl]
        | ok r =>
          obtain ⟨evs2, st3⟩ := r
          simp [hl]

/-- Closing index `i` when the accumulator holds `ts` emits one
`tool_end` and deletes the entry. -/
theorem mapStreamEvent_cbStop_hit (jp : String → Option JSVal) (i : Int)
    (st : EventMapperState) (ts : ToolBlockState)
    (h : tbGet st.toolBlocks (.vnum i) = some ts) :
    mapStreamEvent jp (cbStop i) st =
      .ok ([.tool_end ts.toolId
              (if 0 < ts.accumulatedJson.length then
                 match jp ts.accumulatedJson with
                 | some v => v
                 | none => .vstr ts.accumulatedJson
               else .vundef)
              false],
           ⟨tbDelete st.toolBlocks (.vnum i)⟩) := by
  show (match tbGet st.toolBlocks (.vnum i) with
        | none => (.ok ([], st) : Except JsErr (List OmniEvent × EventMapperState))
        | some ts =>
          .ok ([.tool_end ts.toolId
                  (if 0 < ts.accumulatedJson.length then
                     match jp ts.accumulatedJson with
                     | some v => v
                     | none => .vstr ts.accumulatedJson
                   else .vundef)
                  false],
               ⟨tbDelete st.toolBlocks (.vnum i)⟩)) = _
  rw [h]

/-- **C5 (amended)**: the open → `N` deltas → close sequence for index
`i` yields exactly one `tool_start` (on the open) and exactly one
`tool_end` (on the close); the `tool_end` output is `JSON.parse` of the
fragment concatenation when that concatenation is nonempty and parses,
the raw concatenated string when it is nonempty and does not parse, and
`undefined` when it is empty (no parse attempted); the accumulator entry
for `i` is deleted afterwards. -/
theorem mapStreamEvent_tool_block_roundtrip (jp : String → Option JSVal) (i : Int)
    (toolId toolName : String) (frags : List String) (st : EventMapperState) :
    runMapStreamEvents jp (cbStart i toolId toolName :: (frags.map (cbDelta i) ++ [cbStop i])) st =
      .ok ([.tool_start (.vstr toolName) (.vstr toolId) none,
            .tool_end (.vstr toolId)
              (if 0 < (frags.foldl (· ++ ·) "").length then
                 match jp (frags.foldl (· ++ ·) "") with
                 | some v => v
                 | none => .vstr (frags.foldl (· ++ ·) "")
               else .vundef)
              false],
           ⟨tbDelete st.toolBlocks (.vnum i)⟩) := by
  have hstop :
      mapStreamEvent jp (cbStop i)
        ⟨tbSet st.toolBlocks (.vnum i) ⟨.vstr toolId, .vstr toolName, frags.foldl (· ++ ·) ""⟩⟩ =
      .ok ([.tool_end (.vstr toolId)
              (if 0 < (frags.foldl (· ++ ·) "").length then
                 match jp (frags.foldl (· ++ ·) "") with
                 | some v => v
                 | none => .vstr (frags.foldl (· ++ ·) "")
               else .vundef)
              false],
           ⟨tbDelete st.toolBlocks (.vnum i)⟩) := by
    rw [mapStreamEvent_cbStop_hit jp i _ ⟨.vstr toolId, .vstr toolName, frags.foldl (· ++ ·) ""⟩
      (by simp)]
    simp
  simp only [runMapStreamEvents, mapStreamEvent_cbStart]
  rw [runMapStreamEvents_append, runMapStreamEvents_deltas]
  simp only [runMapStreamEvents, hstop]
  simp

end Claude

/-- A model of `JSON.parse` on which every parse attempt throws (any
faithful model agrees with it on the empty string, since
`JSON.parse("")` throws). -/
def jp0 : String → Option JSVal := fun _ => none

/-- **C5 (counterexample)**: opening a tool-use block at index 0 and
closing it with `N = 0` fragments produces a `tool_end` whose output is
`undefined` — not the raw concatenated string `""` that the claim
requires for an (empty, hence invalid-JSON) concatenation on `N = 0`. -/
theorem mapStreamEvent_empty_accumulator_counterexample :
    Claude.runMapStreamEvents jp0 [Claude.cbStart 0 "t1" "search", Claude.cbStop 0] ⟨[]⟩ =
      .ok ([.tool_start (.vstr "search") (.vstr "t1") none,
            .tool_end (.vstr "t1") .vundef false], ⟨[]⟩) ∧
    JSVal.vundef ≠ JSVal.vstr "" :=
  ⟨rfl, by decide⟩

/-! ## C9: mapper behavior on unrecognized raw input -/

/-- The string `type` tag of a raw event object, when it has one. -/
def eventTypeTag (v : JSVal) : Option String :=
  match v with
  | .vobj fs =>
    match JSVal.lookupField fs "type" with
    | some (.vstr s) => some s
    | _ => none
  | _ => none

/-- The `type` strings the Claude stream-event mapper dispatches on. -/
def claudeKnownEventTypes : List String :=
  ["message_start", "content_block_start", "content_block_delta",
   "content_block_stop", "message_delta", "message_stop"]

/-- The `type` strings the OpenCode event mapper dispatches on. -/
def opencodeKnownEventTypes : List String :=
  ["message.part.updated", "message.updated", "session.idle", "session.error"]

/-- The `type` strings the Codex event mapper dispatches on. -/
def codexKnownEventTypes : List String :=
  ["item.started", "item.completed", "item/agentMessage/delta", "turn.completed"]

theorem mapStreamEvent_unknown_tag (jp : String → Option JSVal) (v : JSVal)
    (st : Claude.EventMapperState)
    (h : ∀ s, eventTypeTag v = some s → s ∉ claudeKnownEventTypes) :
    Claude.mapStreamEvent jp v st = .ok ([], st) := by
  match v with
  | .vnull | .vundef | .vbool _ | .vnum _ | .vstr _ | .varr _ => rfl
  | .vobj fs =>
    cases hty : JSVal.lookupField fs "type" with
    | none =>
      simp [Claude.mapStreamEvent, Claude.isKnownStreamEvent, hty]
    | some tv =>
      cases tv with
      | vstr s =>
        have hs := h s (by simp [eventTypeTag, hty])
        simp only [claudeKnownEventTypes, List.mem_cons, List.not_mem_nil, or_false,
          not_or] at hs
        obtain ⟨h1, h2, h3, h4, h5, h6⟩ := hs
        simp [Claude.mapStreamEvent, Claude.isKnownStreamEvent, hty, JSVal.getD,
          h1, h2, h3, h4, h5, h6]
      | vnull => simp [Claude.mapStreamEvent, Claude.isKnownStreamEvent, hty]
      | vundef => simp [Claude.mapStreamEvent, Claude.isKnownStreamEvent, hty]
      | vbool b => simp [Claude.mapStreamEvent, Claude.isKnownStreamEvent, hty]
      | vnum n => simp [Claude.mapStreamEvent, Claude.isKnownStreamEvent, hty]
      | varr xs => simp [Claude.mapStreamEvent, Claude.isKnownStreamEvent, hty]
      | vobj fs' => simp [Claude.mapStreamEvent, Claude.isKnownStreamEvent, hty]

theorem mapOpenCodeEvent_unknown_tag (v : JSVal)
    (h : ∀ s, eventTypeTag v = some s → s ∉ opencodeKnownEventTypes) :
    OpenCode.mapOpenCodeEvent v = .ok [] := by
  match v with
  | .vnull | .vundef | .vbool _ | .vnum _ | .vstr _ | .varr _ => rfl
  | .vobj fs =>
    cases hty : JSVal.lookupField fs "type" with
    | none =>
      simp [OpenCode.mapOpenCodeEvent, JSVal.getD, JSVal.isObjectJS, hty]
    | some tv =>
      cases tv with
      | vstr s =>
        have hs := h s (by simp [eventTypeTag, hty])
        simp only [opencodeKnownEventTypes, List.mem_cons, List.not_mem_nil, or_false,
          not_or] at hs
        obtain ⟨h1, h2, h3, h4⟩ := hs
        simp [OpenCode.mapOpenCodeEvent, JSVal.getD, JSVal.isObjectJS, hty,
          h1, h2, h3, h4]
      | vnull => simp [OpenCode.mapOpenCodeEvent, JSVal.getD, JSVal.isObjectJS, hty]
      | vundef => simp [OpenCode.mapOpenCodeEvent, JSVal.getD, JSVal.isObjectJS, hty]
      | vbool b => simp [OpenCode.mapOpenCodeEvent, JSVal.getD, JSVal.isObjectJS, hty]
      | vnum n => simp [OpenCode.mapOpenCodeEvent, JSVal.getD, JSVal.isObjectJS, hty]
      | varr xs => simp [OpenCode.mapOpenCodeEvent, JSVal.getD, JSVal.isObjectJS, hty]
      | vobj fs' => simp [OpenCode.mapOpenCodeEvent, JSVal.getD, JSVal.isObjectJS, hty]

theorem mapCodexEventRaw_unknown_tag (v : JSVal)
    (hnull : v ≠ .vnull) (hundef : v ≠ .vundef)
    (h : ∀ s, eventTypeTag v = some s → s ∉ codexKnownEventTypes) :
    Codex.mapCodexEventRaw v = .ok [] := by
  match v with
  | .vnull => exact absurd rfl hnull
  | .vundef => exact absurd rfl hundef
  | .vbool _ | .vnum _ | .vstr _ | .varr _ => rfl
  | .vobj fs =>
    cases hty : JSVal.lookupField fs "type" with
    | none =>
      simp [Codex.mapCodexEventRaw, JSVal.get, JSVal.getD, hty]
    | some tv =>
      cases tv with
      | vstr s =>
        have hs := h s (by simp [eventTypeTag, hty])
        simp only [codexKnownEventTypes, List.mem_cons, List.not_mem_nil, or_false,
          not_or] at hs
        obtain ⟨h1, h2, h3, h4⟩ := hs
        simp [Codex.mapCodexEventRaw, JSVal.get, JSVal.getD, hty, h1, h2, h3, h4]
      | vnull => simp [Codex.mapCodexEventRaw, JSVal.get, JSVal.getD, hty]
      | vundef => simp [Codex.mapCodexEventRaw, JSVal.get, JSVal.getD, hty]
      | vbool b => simp [Codex.mapCodexEventRaw, JSVal.get, JSVal.getD, hty]
      | vnum n => simp [Codex.mapCodexEventRaw, JSVal.get, JSVal.getD, hty]
      | varr xs => simp [Codex.mapCodexEventRaw, JSVal.get, JSVal.getD, hty]
      | vobj fs' => simp [Codex.mapCodexEventRaw, JSVal.get, JSVal.getD, hty]

/-- **C9 (amended)**: the Claude and OpenCode mappers return the empty
event list, without throwing, on every raw input whose `type` tag is
unrecognized — including non-objects, objects without a `type`, and
objects with a non-string `type`; the Codex mapper does so on every such
input except `null` and `undefined`, on which its unguarded `event.type`
read throws a `TypeError`. -/
theorem mappers_unrecognized_input_empty :
    (∀ (jp : String → Option JSVal) (v : JSVal) (st : Claude.EventMapperState),
      (∀ s, eventTypeTag v = some s → s ∉ claudeKnownEventTypes) →
        Claude.mapStreamEvent jp v st = .ok ([], st)) ∧
    (∀ v : JSVal, (∀ s, eventTypeTag v = some s → s ∉ opencodeKnownEventTypes) →
        OpenCode.mapOpenCodeEvent v = .ok []) ∧
    (∀ v : JSVal, v ≠ .vnull → v ≠ .vundef →
      (∀ s, eventTypeTag v = some s → s ∉ codexKnownEventTypes) →
        Codex.mapCodexEventRaw v = .ok []) :=
  ⟨mapStreamEvent_unknown_tag, mapOpenCodeEvent_unknown_tag, mapCodexEventRaw_unknown_tag⟩

theorem mappers_unrecognized_input_empty_witness :
    Claude.mapStreamEvent jp0 (.vobj [("type", .vstr "weird_event")]) ⟨[]⟩ = .ok ([], ⟨[]⟩) ∧
    OpenCode.mapOpenCodeEvent (.vnum 7) = .ok [] ∧
    Codex.mapCodexEventRaw (.vobj [("type", .vstr "weird_event")]) = .ok [] := by
  refine ⟨mappers_unrecognized_input_empty.1 jp0 _ _ ?_,
    mappers_unrecognized_input_empty.2.1 _ ?_,
    mappers_unrecognized_input_empty.2.2 _ (by decide) (by decide) ?_⟩
  · intro s hs
    simp [eventTypeTag, JSVal.lookupField] at hs
    subst hs
    decide
  · intro s hs
    simp [eventTypeTag] at hs
  · intro s hs
    simp [eventTypeTag, JSVal.lookupField] at hs
    subst hs
    decide

/-- **C9 (counterexample)**: the Codex mapper applied to the non-object
value `null` throws a `TypeError` instead of returning the empty event
list. -/
theorem mapCodexEventRaw_null_throws :
    Codex.mapCodexEventRaw .vnull =
      .error (.typeError "Cannot read properties of null (reading type)") := rfl

/-! ## C2: second iteration attempts -/

/-- **C2 (amended)**: a second iteration attempt on an already-started
(or completed) Claude or OpenCode stream throws the
"can only be iterated once" usage error and yields nothing; the Codex
stream has no such guard — once its iteration has completed, a new
iteration attempt silently yields the empty event sequence. -/
theorem second_iteration_guard :
    (∀ (jp : String → Option JSVal) (st : Claude.ClaudeStreamState)
        (msgs : List Claude.SDKMessage), st.iterating = true →
      Claude.claudeIterate jp st msgs = ([], .error Claude.claudeIterateTwiceError)) ∧
    (∀ (st : OpenCode.OpenCodeStreamState) (events : List JSVal), st.iterating = true →
      OpenCode.ocIterate st events = ([], .error OpenCode.ocIterateTwiceError)) ∧
    (∀ (st : Codex.CodexStreamState) (events : List Codex.CodexEvent)
        (srcErr : Option JsErr), st.done = true →
      Codex.codexIterate st events srcErr = ([], st)) := by
  refine ⟨?_, ?_, ?_⟩
  · intro jp st msgs h
    simp [Claude.claudeIterate, h]
  · intro st events h
    simp [OpenCode.ocIterate, h]
  · intro st events srcErr h
    simp [Codex.codexIterate, h]

theorem second_iteration_guard_witness :
    Claude.claudeIterate jp0 { iterating := true } [] =
      ([], .error Claude.claudeIterateTwiceError) ∧
    OpenCode.ocIterate { sessionId := "s", iterating := true } [] =
      ([], .error OpenCode.ocIterateTwiceError) ∧
    Codex.codexIterate { sessionId := "s", done := true } [] none =
      ([], { sessionId := "s", done := true }) :=
  ⟨second_iteration_guard.1 jp0 _ [] rfl,
   second_iteration_guard.2.1 _ [] rfl,
   second_iteration_guard.2.2 _ [] none rfl⟩

/-- A Codex stream that has completed one full iteration (of an empty
raw source). -/
def codexDrainedStream : Codex.CodexStreamState :=
  (Codex.codexIterate (Codex.codexNew "s") [] none).2

/-- **C2 (counterexample)**: iterating an already-consumed Codex stream
again raises no usage error — it silently yields the empty event
sequence (the iterate model is total: there is no error channel at
all on this path). -/
theorem codex_second_iteration_silent :
    codexDrainedStream.done = true ∧
    Codex.codexIterate codexDrainedStream [] none = ([], codexDrainedStream) ∧
    (Codex.codexIterate codexDrainedStream [] none).1 = [] :=
  ⟨rfl, rfl, rfl⟩

/-! ## C8: turn_start as the first event -/

/-- **C8 (amended)**: whenever iteration begins at all, the first yielded
event is the synthetic `turn_start`, before any provider message is
consumed: for Claude on every state that has not already been iterated
(aborted-at-construction included), for Codex on every not-yet-done
state, and for OpenCode on every not-yet-iterated state that is not
already aborted.  An OpenCode stream that is already aborted when
iteration starts (e.g. constructed with an already-aborted external
signal) yields no events at all. -/
theorem turn_start_first :
    (∀ (jp : String → Option JSVal) (st : Claude.ClaudeStreamState)
        (msgs : List Claude.SDKMessage), st.iterating = false →
      (Claude.claudeIterate jp st msgs).1.head? = some OmniEvent.turn_start) ∧
    (∀ (st : Codex.CodexStreamState) (events : List Codex.CodexEvent)
        (srcErr : Option JsErr), st.done = false →
      (Codex.codexIterate st events srcErr).1.head? = some OmniEvent.turn_start) ∧
    (∀ (st : OpenCode.OpenCodeStreamState) (events : List JSVal),
        st.iterating = false → st.aborted = false →
      (OpenCode.ocIterate st events).1.head? = some OmniEvent.turn_start) := by
  refine ⟨?_, ?_, ?_⟩
  · intro jp st msgs h
    simp only [Claude.claudeIterate, h]
    rcases Claude.claudeLoop jp { st with iterating := true }
      Claude.createEventMapperState msgs with ⟨evs, r⟩
    simp
  · intro st events srcErr h
    simp only [Codex.codexIterate, h]
    rcases hl : Codex.codexLoop st events srcErr with ⟨evs, st', caught⟩
    cases caught <;> simp [hl]
  · intro st events h ha
    simp only [OpenCode.ocIterate, h, ha]
    rcases hl : OpenCode.ocLoop { st with aborted := false, iterating := true } events
      with ⟨evs, r⟩
    cases r <;> simp [hl]

theorem turn_start_first_witness :
    (Claude.claudeIterate jp0 (Claude.claudeNew (some true)) []).1.head? =
      some OmniEvent.turn_start ∧
    (Codex.codexIterate (Codex.codexNew "s") [] none).1.head? =
      some OmniEvent.turn_start ∧
    (OpenCode.ocIterate (OpenCode.ocNew "s" none) []).1.head? =
      some OmniEvent.turn_start :=
  ⟨turn_start_first.1 jp0 _ [] rfl,
   turn_start_first.2.1 _ [] none rfl,
   turn_start_first.2.2 _ [] rfl rfl⟩

/-- **C8 (counterexample)**: an OpenCode stream constructed with an
already-aborted external cancellation signal yields no events at all —
in particular no leading `turn_start`. -/
theorem opencode_aborted_signal_no_turn_start :
    (OpenCode.ocIterate (OpenCode.ocNew "s" (some true)) []).1 = [] ∧
    (OpenCode.ocIterate (OpenCode.ocNew "s" (some true)) []).1.head? ≠
      some OmniEvent.turn_start :=
  ⟨rfl, by decide⟩

/-! ## C10: withFallback with no registered name -/

theorem withFallbackGo_all_absent {A T : Type} (agents : List (String × A))
    (sf : JsErr → Bool) (fn : A → String → Except JsErr T)
    (names : List String) (failures : List (String × JsErr))
    (h : ∀ n ∈ names, Manager.agentsGet agents n = none) :
    Manager.withFallbackGo agents sf fn names failures =
      .error (.allAgentsFailed failures) := by
  induction names with
  | nil => rfl
  | cons n rest ih =>
    have hn := h n (List.mem_cons_self n rest)
    simp only [Manager.withFallbackGo, hn]
    exact ih (fun m hm => h m (List.mem_cons_of_mem n hm))

/-- **C10**: with an effective name list none of whose names is
registered — the empty list included — `withFallback` raises the
aggregate `AllAgentsFailedError` with zero failure entries; in
particular a fallback-enabled `createSession` on an empty registry does
so, rather than delegating to the default agent or raising a
no-default/not-found configuration error. -/
theorem withFallback_no_registered_names {A T : Type} (agents : List (String × A))
    (registryOrder : List String) (sf : Option (JsErr → Bool))
    (fn : A → String → Except JsErr T) (order : Option (List String))
    (h : ∀ n ∈ order.getD registryOrder, Manager.agentsGet agents n = none) :
    Manager.withFallback agents registryOrder sf fn order =
      .error (.allAgentsFailed []) ∧
    Manager.createSession ({} : Manager.AgentManagerState A) (some { enabled := true }) fn =
      .error (.allAgentsFailed []) :=
  ⟨withFallbackGo_all_absent _ _ _ _ _ h,
   withFallbackGo_all_absent _ _ _ _ _ (by intro n hn; cases hn)⟩

theorem withFallback_no_registered_names_witness :
    Manager.withFallback [("x", ())] ["a", "b"] none
        (fun _ _ => (.ok () : Except JsErr Unit)) none =
      .error (.allAgentsFailed []) ∧
    Manager.createSession ({} : Manager.AgentManagerState Unit) (some { enabled := true })
        (fun _ _ => (.ok () : Except JsErr Unit)) =
      .error (.allAgentsFailed []) :=
  withFallback_no_registered_names [("x", ())] ["a", "b"] none _ none (by decide)

/-! ## C3: withFallback classification and aggregation -/

/-- **C3 (amended)**: `withFallback` tries the effective name list in
order, silently skipping unregistered names; an error that is an
`OmniAgentError` instance is classified by the predicate (default:
retriable exactly when its code is `PROVIDER_ERROR` or `NETWORK`), and a
non-retriable classification re-raises it immediately; an error that is
not an `OmniAgentError` instance bypasses the predicate and is always
treated as retriable; every retriable failure is recorded as a
`(name, error)` entry in attempt order, and when no attempt succeeds or
re-raises, the aggregate error carries exactly those entries; the value
of the first successful attempt is returned unchanged. -/
theorem withFallback_classification {A T : Type} (agents : List (String × A))
    (sf : JsErr → Bool) (fn : A → String → Except JsErr T) :
    (∀ registryOrder, Manager.withFallback agents registryOrder (some sf) fn none =
       Manager.withFallbackGo agents sf fn registryOrder []) ∧
    (∀ registryOrder names,
       Manager.withFallback agents registryOrder (some sf) fn (some names) =
         Manager.withFallbackGo agents sf fn names []) ∧
    (∀ name rest failures, Manager.agentsGet agents name = none →
       Manager.withFallbackGo agents sf fn (name :: rest) failures =
         Manager.withFallbackGo agents sf fn rest failures) ∧
    (∀ name rest failures a v, Manager.agentsGet agents name = some a →
       fn a name = .ok v →
       Manager.withFallbackGo agents sf fn (name :: rest) failures = .ok v) ∧
    (∀ name rest failures a e, Manager.agentsGet agents name = some a →
       fn a name = .error e → e.isOmniAgentError = true → sf e = false →
       Manager.withFallbackGo agents sf fn (name :: rest) failures = .error e) ∧
    (∀ name rest failures a e, Manager.agentsGet agents name = some a →
       fn a name = .error e → (e.isOmniAgentError = false ∨ sf e = true) →
       Manager.withFallbackGo agents sf fn (name :: rest) failures =
         Manager.withFallbackGo agents sf fn rest (failures ++ [(name, e)])) ∧
    (∀ failures, Manager.withFallbackGo agents sf fn [] failures =
       .error (.allAgentsFailed failures)) ∧
    (∀ (nm pv msg : String) (code : OmniErrorCode),
       Manager.defaultShouldFallback (.omniError nm pv code msg) =
         (decide (code = .PROVIDER_ERROR) || decide (code = .NETWORK))) := by
  refine ⟨fun _ => rfl, fun _ _ => rfl, ?_, ?_, ?_, ?_, fun _ => rfl, ?_⟩
  · intro name rest failures hget
    simp only [Manager.withFallbackGo, hget]
  · intro name rest failures a v hget hfn
    simp only [Manager.withFallbackGo, hget, hfn]
  · intro name rest failures a e hget hfn homni hsf
    simp only [Manager.withFallbackGo, hget, hfn, homni, hsf]
    rfl
  · intro name rest failures a e hget hfn h
    rcases h with h | h <;> simp [Manager.withFallbackGo, hget, hfn, h]
  · intro nm pv msg code
    cases code <;> rfl

theorem withFallback_classification_witness :
    Manager.withFallbackGo [("a", ()), ("b", ())] Manager.defaultShouldFallback
        (fun _ n => if n = "b" then (.ok 7 : Except JsErr Int)
                    else .error (.omniError "OmniAgentError" "p" .NETWORK "down"))
        ["missing", "a", "b"] [] = .ok 7 ∧
    Manager.withFallbackGo [("a", ())] Manager.defaultShouldFallback
        (fun _ _ => (.error (.omniError "OmniAgentError" "p" .CONFIGURATION "bad") :
          Except JsErr Int)) ["a"] [] =
      .error (.omniError "OmniAgentError" "p" .CONFIGURATION "bad") ∧
    Manager.defaultShouldFallback (.omniError "OmniAgentError" "p" .NETWORK "down") =
      (decide ((OmniErrorCode.NETWORK : OmniErrorCode) = .PROVIDER_ERROR) ||
        decide ((OmniErrorCode.NETWORK : OmniErrorCode) = .NETWORK)) := by
  refine ⟨?_, ?_, ?_⟩
  · have h1 := (withFallback_classification [("a", ()), ("b", ())]
      Manager.defaultShouldFallback
      (fun _ n => if n = "b" then (.ok 7 : Except JsErr Int)
                  else .error (.omniError "OmniAgentError" "p" .NETWORK "down"))).2.2.1
      "missing" ["a", "b"] [] (by decide)
    rw [h1]
    have h2 := (withFallback_classification [("a", ()), ("b", ())]
      Manager.defaultShouldFallback
      (fun _ n => if n = "b" then (.ok 7 : Except JsErr Int)
                  else .error (.omniError "OmniAgentError" "p" .NETWORK "down"))).2.2.2.2.2.1
      "a" ["b"] [] () (.omniError "OmniAgentError" "p" .NETWORK "down")
      (by decide) rfl (Or.inr (by decide))
    rw [h2]
    exact (withFallback_classification [("a", ()), ("b", ())]
      Manager.defaultShouldFallback
      (fun _ n => if n = "b" then (.ok 7 : Except JsErr Int)
                  else .error (.omniError "OmniAgentError" "p" .NETWORK "down"))).2.2.2.1
      "b" [] [("a", .omniError "OmniAgentError" "p" .NETWORK "down")] () 7
      (by decide) rfl
  · exact (withFallback_classification [("a", ())] Manager.defaultShouldFallback
      (fun _ _ => (.error (.omniError "OmniAgentError" "p" .CONFIGURATION "bad") :
        Except JsErr Int))).2.2.2.2.1
      "a" [] [] () (.omniError "OmniAgentError" "p" .CONFIGURATION "bad")
      (by decide) rfl (by decide) (by decide)
  · exact (withFallback_classification ([] : List (String × Unit))
      Manager.defaultShouldFallback
      (fun _ _ => (.ok 0 : Except JsErr Int))).2.2.2.2.2.2.2
      "OmniAgentError" "p" "down" .NETWORK

/-- **C3 (counterexample)**: under the default classification an error
with no provider-error/network code is non-retriable, so the claim
demands that it be re-raised immediately; but a thrown plain `Error`
(not an `OmniAgentError` instance) is aggregated instead — the single
attempted name fails and `withFallback` raises the aggregate error, not
the original one. -/
theorem withFallback_plain_error_not_reraised :
    Manager.withFallback [("a", ())] ["a"] none
        (fun _ _ => (.error (.plainError "boom") : Except JsErr Unit)) none =
      .error (.allAgentsFailed [("a", .plainError "boom")]) ∧
    JsErr.allAgentsFailed [("a", .plainError "boom")] ≠ .plainError "boom" ∧
    Manager.defaultShouldFallback (.plainError "boom") = false :=
  ⟨rfl, by decide, rfl⟩

/-! ## C4: registry insertion order and default reassignment -/

/-- Backends A, B, C registered in that order on a fresh manager. -/
def demoABC : Manager.AgentManagerState Unit :=
  Manager.register (Manager.register (Manager.register {} "A" ()) "B" ()) "C" ()

/-- **C4 (amended)**: `agentNames()` preserves insertion order across
removals (removal yields a sublist of the previous order; registering a
fresh name appends it, re-registering changes nothing; unregistering an
absent name changes nothing); unregistering the current default
reassigns the default to the **first remaining** entry in insertion
order — which is the next entry only when the default was the earliest
entry — or clears it when the registry becomes empty.  With A, B, C
registered in that order and A the (auto-assigned) default, removing A
makes B the default, and removing the last remaining backend clears the
default. -/
theorem registry_order_and_default {A : Type} (st : Manager.AgentManagerState A)
    (name : String) :
    ((Manager.unregister st name).2.order).Sublist st.order ∧
    (∀ a : A, (Manager.register st name a).order =
       if name ∈ st.order then st.order else st.order ++ [name]) ∧
    (Manager.agentsGet st.agents name ≠ none → st.defaultAgentName = some name →
       (Manager.unregister st name).2.defaultAgentName = (st.order.erase name).head?) ∧
    (Manager.agentsGet st.agents name = none → (Manager.unregister st name).2 = st) ∧
    (Manager.agentNames demoABC = ["A", "B", "C"] ∧
     demoABC.defaultAgentName = some "A" ∧
     (Manager.unregister demoABC "A").2.defaultAgentName = some "B" ∧
     (Manager.unregister (Manager.unregister
        (Manager.unregister demoABC "A").2 "B").2 "C").2.defaultAgentName = none) := by
  refine ⟨?_, fun a => rfl, ?_, ?_, rfl, rfl, rfl, rfl⟩
  · cases hget : Manager.agentsGet st.agents name with
    | none => simp [Manager.unregister, hget]
    | some a =>
      simp only [Manager.unregister, hget]
      exact st.order.erase_sublist name
  · intro hne hdef
    cases hget : Manager.agentsGet st.agents name with
    | none => exact absurd hget hne
    | some a => simp [Manager.unregister, hget, hdef]
  · intro hget
    simp [Manager.unregister, hget]

theorem registry_order_and_default_witness :
    ((Manager.unregister demoABC "A").2.order).Sublist demoABC.order ∧
    (Manager.unregister demoABC "A").2.defaultAgentName =
      (demoABC.order.erase "A").head? ∧
    (Manager.unregister demoABC "X").2 = demoABC :=
  ⟨(registry_order_and_default demoABC "A").1,
   (registry_order_and_default demoABC "A").2.2.1 (by decide) rfl,
   (registry_order_and_default demoABC "X").2.2.2.1 (by decide)⟩

/-- The A, B, C registry with the default explicitly moved to B. -/
def demoDefaultB : Manager.AgentManagerState Unit :=
  { agents := [("A", ()), ("B", ()), ("C", ())], order := ["A", "B", "C"],
    defaultAgentName := some "B" }

/-- **C4 (counterexample)**: with A, B, C registered in that order and
the default set to B, unregistering B reassigns the default to A (the
first remaining entry in insertion order), not to C — the entry that
comes next after B in insertion order — as the claim requires. -/
theorem unregister_default_not_next_in_order :
    Manager.setDefaultAgentName demoABC "B" = .ok demoDefaultB ∧
    (Manager.unregister demoDefaultB "B").2.defaultAgentName = some "A" ∧
    (some "A" : Option String) ≠ some "C" :=
  ⟨rfl, rfl, by decide⟩

/-! ## Stream-state preservation lemmas -/

namespace Claude

theorem claudeStep_flags (jp : String → Option JSVal) (st : ClaudeStreamState)
    (ms : EventMapperState) (m : SDKMessage) (evs : List OmniEvent)
    (st' : ClaudeStreamState) (ms' : EventMapperState)
    (h : claudeStep jp st ms m = .ok (evs, st', ms')) :
    st'.aborted = st.aborted ∧ st'.iterating = st.iterating ∧ st'.done = st.done := by
  cases m with
  | stream_event sid ev =>
    simp only [claudeStep] at h
    cases hm : mapStreamEvent jp ev ms <;> rw [hm] at h
    · cases h
    · rename_i p
      obtain ⟨evs0, ms0⟩ := p
      simp only [except_ok_bind, Except.ok.injEq, Prod.mk.injEq] at h
      obtain ⟨-, hst, -⟩ := h
      subst hst
      split <;> (try split) <;> simp
  | assistant sid uuid message =>
    simp only [claudeStep] at h
    cases hm : mapAssistantMessage message uuid <;> rw [hm] at h
    · cases h
    · simp only [except_ok_bind, Except.ok.injEq, Prod.mk.injEq] at h
      obtain ⟨-, hst, -⟩ := h
      subst hst
      split <;> (try split) <;> simp
  | result sid is_error subtype raw =>
    simp only [claudeStep] at h
    split at h <;>
    · simp only [Except.ok.injEq, Prod.mk.injEq] at h
      obtain ⟨-, hst, -⟩ := h
      subst hst
      split <;> (try split) <;> (try split) <;> simp
  | other sid =>
    simp only [claudeStep] at h
    simp only [Except.ok.injEq, Prod.mk.injEq] at h
    obtain ⟨-, hst, -⟩ := h
    subst hst
    split <;> (try split) <;> simp

/-- The result cached in a stream state (when any) ties its `text` to
`collectText` of its own message list. -/
def resultTextOk (st : ClaudeStreamState) : Prop :=
  ∀ r, st.result = some r → r.text = collectText r.messages

theorem claudeStep_resultTextOk (jp : String → Option JSVal) (st : ClaudeStreamState)
    (ms : EventMapperState) (m : SDKMessage) (evs : List OmniEvent)
    (st' : ClaudeStreamState) (ms' : EventMapperState)
    (h : claudeStep jp st ms m = .ok (evs, st', ms'))
    (hinv : resultTextOk st) : resultTextOk st' := by
  cases m with
  | stream_event sid ev =>
    simp only [claudeStep] at h
    cases hm : mapStreamEvent jp ev ms <;> rw [hm] at h
    · cases h
    · rename_i p
      obtain ⟨evs0, ms0⟩ := p
      simp only [except_ok_bind, Except.ok.injEq, Prod.mk.injEq] at h
      obtain ⟨-, hst, -⟩ := h
      subst hst
      intro r hr
      apply hinv
      rw [← hr]
      (repeat' split) <;> rfl
  | assistant sid uuid message =>
    simp only [claudeStep] at h
    cases hm : mapAssistantMessage message uuid <;> rw [hm] at h
    · cases h
    · simp only [except_ok_bind, Except.ok.injEq, Prod.mk.injEq] at h
      obtain ⟨-, hst, -⟩ := h
      subst hst
      intro r hr
      apply hinv
      rw [← hr]
      (repeat' split) <;> rfl
  | result sid is_error subtype raw =>
    simp only [claudeStep] at h
    split at h
    · simp only [Except.ok.injEq, Prod.mk.injEq] at h
      obtain ⟨-, hst, -⟩ := h
      subst hst
      intro r hr
      apply hinv
      rw [← hr]
      (repeat' split) <;> rfl
    · simp only [Except.ok.injEq, Prod.mk.injEq] at h
      obtain ⟨-, hst, -⟩ := h
      subst hst
      intro r hr
      simp only [ClaudeStreamState.result, Option.some.injEq] at hr
      subst hr
      rfl
  | other sid =>
    simp only [claudeStep] at h
    simp only [Except.ok.injEq, Prod.mk.injEq] at h
    obtain ⟨-, hst, -⟩ := h
    subst hst
    intro r hr
    apply hinv
    rw [← hr]
    (repeat' split) <;> rfl

/-- Once the abort flag is observed, the message loop yields nothing and
only marks the stream done. -/
theorem claudeLoop_aborted (jp : String → Option JSVal) (st : ClaudeStreamState)
    (ms : EventMapperState) (msgs : List SDKMessage) (h : st.aborted = true) :
    claudeLoop jp st ms msgs = ([], .ok { st with done := true }) := by
  cases msgs with
  | nil => rfl
  | cons m rest => simp [claudeLoop, h]

theorem claudeLoop_ok_flags (jp : String → Option JSVal) (st : ClaudeStreamState)
    (ms : EventMapperState) (msgs : List SDKMessage) (evs : List OmniEvent)
    (st' : ClaudeStreamState) (h : claudeLoop jp st ms msgs = (evs, .ok st')) :
    st'.done = true ∧ st'.aborted = st.aborted ∧ st'.iterating = st.iterating := by
  induction msgs generalizing st ms evs with
  | nil =>
    simp only [claudeLoop, Prod.mk.injEq, Except.ok.injEq] at h
    obtain ⟨-, hst⟩ := h
    subst hst
    simp
  | cons m rest ih =>
    simp only [claudeLoop] at h
    split at h
    · rename_i ha
      simp only [Prod.mk.injEq, Except.ok.injEq] at h
      obtain ⟨-, hst⟩ := h
      subst hst
      simp
    · cases hs : claudeStep jp st ms m <;> rw [hs] at h
      · simp at h
      · rename_i p
        obtain ⟨evs0, st0, ms0⟩ := p
        rcases hl : claudeLoop jp st0 ms0 rest with ⟨evs1, r1⟩
        simp only [hl, Prod.mk.injEq] at h
        obtain ⟨-, hr⟩ := h
        subst hr
        obtain ⟨h1, h2, h3⟩ := ih st0 ms0 evs1 hl
        obtain ⟨g1, g2, g3⟩ := claudeStep_flags jp st ms m evs0 st0 ms0 hs
        exact ⟨h1, by rw [h2, g1], by rw [h3, g2]⟩

theorem claudeLoop_resultTextOk (jp : String → Option JSVal) (st : ClaudeStreamState)
    (ms : EventMapperState) (msgs : List SDKMessage) (evs : List OmniEvent)
    (st' : ClaudeStreamState) (h : claudeLoop jp st ms msgs = (evs, .ok st'))
    (hinv : resultTextOk st) : resultTextOk st' := by
  induction msgs generalizing st ms evs with
  | nil =>
    simp only [claudeLoop, Prod.mk.injEq, Except.ok.injEq] at h
    obtain ⟨-, hst⟩ := h
    subst hst
    exact fun r hr => hinv r hr
  | cons m rest ih =>
    simp only [claudeLoop] at h
    split at h
    · simp only [Prod.mk.injEq, Except.ok.injEq] at h
      obtain ⟨-, hst⟩ := h
      subst hst
      exact fun r hr => hinv r hr
    · cases hs : claudeStep jp st ms m <;> rw [hs] at h
      · simp at h
      · rename_i p
        obtain ⟨evs0, st0, ms0⟩ := p
        rcases hl : claudeLoop jp st0 ms0 rest with ⟨evs1, r1⟩
        simp only [hl, Prod.mk.injEq] at h
        obtain ⟨-, hr⟩ := h
        subst hr
        exact ih st0 ms0 evs1 hl (claudeStep_resultTextOk jp st ms m evs0 st0 ms0 hs hinv)

theorem claudeIterate_ok_flags (jp : String → Option JSVal) (st : ClaudeStreamState)
    (msgs : List SDKMessage) (evs : List OmniEvent) (st' : ClaudeStreamState)
    (hit : st.iterating = false) (h : claudeIterate jp st msgs = (evs, .ok st')) :
    st'.done = true ∧ st'.aborted = st.aborted ∧ st'.iterating = true := by
  simp only [claudeIterate, hit] at h
  rcases hl : claudeLoop jp { st with iterating := true } createEventMapperState msgs
    with ⟨evs0, r0⟩
  rw [hl] at h
  simp only [Bool.false_eq_true, if_false, Prod.mk.injEq] at h
  obtain ⟨-, hr⟩ := h
  subst hr
  obtain ⟨h1, h2, h3⟩ := claudeLoop_ok_flags jp _ _ msgs evs0 st' hl
  exact ⟨h1, h2, h3⟩

end Claude

namespace OpenCode

theorem ocAccumulate_inv (st : OpenCodeStreamState) (ev : OmniEvent) :
    (ocAccumulate st ev).aborted = st.aborted ∧
    (ocAccumulate st ev).iterating = st.iterating ∧
    (ocAccumulate st ev).done = st.done ∧
    (ocAccumulate st ev).result = st.result ∧
    (ocAccumulate st ev).sessionId = st.sessionId := by
  cases ev <;> exact ⟨rfl, rfl, rfl, rfl, rfl⟩

theorem ocFoldl_inv (evs : List OmniEvent) (st : OpenCodeStreamState) :
    (evs.foldl ocAccumulate st).aborted = st.aborted ∧
    (evs.foldl ocAccumulate st).iterating = st.iterating ∧
    (evs.foldl ocAccumulate st).done = st.done ∧
    (evs.foldl ocAccumulate st).result = st.result ∧
    (evs.foldl ocAccumulate st).sessionId = st.sessionId := by
  induction evs generalizing st with
  | nil => exact ⟨rfl, rfl, rfl, rfl, rfl⟩
  | cons e rest ih =>
    simp only [List.foldl_cons]
    obtain ⟨h1, h2, h3, h4, h5⟩ := ih (ocAccumulate st e)
    obtain ⟨g1, g2, g3, g4, g5⟩ := ocAccumulate_inv st e
    exact ⟨h1.trans g1, h2.trans g2, h3.trans g3, h4.trans g4, h5.trans g5⟩

theorem ocStepEvent_ok_inv (st : OpenCodeStreamState) (e : JSVal)
    (evs : List OmniEvent) (st' : OpenCodeStreamState) (brk : Bool)
    (h : ocStepEvent st e = .ok (evs, st', brk)) :
    st'.aborted = st.aborted ∧ st'.iterating = st.iterating ∧
    st'.done = st.done ∧ st'.result = st.result ∧ st'.sessionId = st.sessionId := by
  simp only [ocStepEvent] at h
  split at h
  · split at h
    · simp only [Except.ok.injEq, Prod.mk.injEq] at h
      obtain ⟨-, hst, -⟩ := h
      subst hst
      exact ⟨rfl, rfl, rfl, rfl, rfl⟩
    · cases hm : mapOpenCodeEvent e <;> rw [hm] at h
      · cases h
      · rename_i evs0
        cases ht : isTerminalOpenCodeEvent e <;> rw [ht] at h
        · cases h
        · simp only [except_ok_bind, Except.ok.injEq, Prod.mk.injEq] at h
          obtain ⟨-, hst, -⟩ := h
          subst hst
          exact ocFoldl_inv evs0 st
  · cases hm : mapOpenCodeEvent e <;> rw [hm] at h
    · cases h
    · rename_i evs0
      cases ht : isTerminalOpenCodeEvent e <;> rw [ht] at h
      · cases h
      · simp only [except_ok_bind, Except.ok.injEq, Prod.mk.injEq] at h
        obtain ⟨-, hst, -⟩ := h
        subst hst
        exact ocFoldl_inv evs0 st

/-- Once the abort flag is observed, the SSE loop yields nothing and
changes nothing. -/
theorem ocLoop_aborted (st : OpenCodeStreamState) (events : List JSVal)
    (h : st.aborted = true) : ocLoop st events = ([], .ok st) := by
  cases events with
  | nil => rfl
  | cons e rest => simp [ocLoop, h]

theorem ocLoop_ok_inv (st : OpenCodeStreamState) (events : List JSVal)
    (evs : List OmniEvent) (st' : OpenCodeStreamState)
    (h : ocLoop st events = (evs, .ok st')) :
    st'.aborted = st.aborted ∧ st'.iterating = st.iterating ∧
    st'.done = st.done ∧ st'.result = st.result ∧ st'.sessionId = st.sessionId := by
  induction events generalizing st evs with
  | nil =>
    simp only [ocLoop, Prod.mk.injEq, Except.ok.injEq] at h
    obtain ⟨-, hst⟩ := h
    subst hst
    exact ⟨rfl, rfl, rfl, rfl, rfl⟩
  | cons e rest ih =>
    simp only [ocLoop] at h
    split at h
    · simp only [Prod.mk.injEq, Except.ok.injEq] at h
      obtain ⟨-, hst⟩ := h
      subst hst
      exact ⟨rfl, rfl, rfl, rfl, rfl⟩
    · cases hs : ocStepEvent st e <;> rw [hs] at h
      · simp at h
      · rename_i p
        obtain ⟨evs0, st0, brk⟩ := p
        cases brk with
        | true =>
          simp only [Prod.mk.injEq, Except.ok.injEq] at h
          obtain ⟨-, hst⟩ := h
          subst hst
          exact ocStepEvent_ok_inv st e evs0 _ true hs
        | false =>
          rcases hl : ocLoop st0 rest with ⟨evs1, r1⟩
          simp only [hl, Prod.mk.injEq] at h
          obtain ⟨-, hr⟩ := h
          subst hr
          obtain ⟨h1, h2, h3, h4, h5⟩ := ih st0 evs1 hl
          obtain ⟨g1, g2, g3, g4, g5⟩ := ocStepEvent_ok_inv st e evs0 st0 false hs
          exact ⟨h1.trans g1, h2.trans g2, h3.trans g3, h4.trans g4, h5.trans g5⟩

theorem ocIterate_ok_inv (st : OpenCodeStreamState) (events : List JSVal)
    (evs : List OmniEvent) (st' : OpenCodeStreamState)
    (hit : st.iterating = false) (h : ocIterate st events = (evs, .ok st')) :
    st'.iterating = true ∧ st'.aborted = st.aborted ∧
    (st.result = none → ∀ r, st'.result = some r →
      r.text = Claude.collectText r.messages ∧ st'.aborted = false ∧
        st'.isError = false) := by
  simp only [ocIterate, hit, Bool.false_eq_true, if_false] at h
  split at h
  · rename_i ha
    simp only [Prod.mk.injEq, Except.ok.injEq] at h
    obtain ⟨-, hst⟩ := h
    subst hst
    refine ⟨rfl, rfl, fun hres r hr => ?_⟩
    simp only [OpenCodeStreamState.result] at hr
    rw [hres] at hr
    cases hr
  · rename_i ha
    rcases hl : ocLoop { st with iterating := true } events with ⟨evs0, r0⟩
    simp only [hl] at h
    cases r0 with
    | error e => simp at h
    | ok stL =>
      simp only [Prod.mk.injEq, Except.ok.injEq] at h
      obtain ⟨-, hst⟩ := h
      obtain ⟨i1, i2, i3, i4, i5⟩ := ocLoop_ok_inv _ events evs0 stL hl
      by_cases hcond : ¬stL.aborted = true ∧ ¬stL.isError = true
      · rw [if_pos hcond] at hst
        subst hst
        refine ⟨by simpa using i2, by simpa using i1, fun hres r hr => ?_⟩
        simp only [OpenCodeStreamState.result, Option.some.injEq] at hr
        subst hr
        exact ⟨rfl, by simpa using hcond.1, by simpa using hcond.2⟩
      · rw [if_neg hcond] at hst
        subst hst
        refine ⟨by simpa using i2, by simpa using i1, fun hres r hr => ?_⟩
        simp only [OpenCodeStreamState.result] at hr
        have i4' : stL.result = st.result := by simpa using i4
        rw [i4', hres] at hr
        cases hr

end OpenCode

namespace Codex

theorem trackAccumulationState_inv (st : CodexStreamState) (ev : CodexEvent) :
    (trackAccumulationState st ev).aborted = st.aborted ∧
    (trackAccumulationState st ev).done = st.done ∧
    (trackAccumulationState st ev).sessionId = st.sessionId := by
  cases ev with
  | itemCompleted item =>
    simp only [trackAccumulationState]
    split <;> exact ⟨rfl, rfl, rfl⟩
  | itemStarted item => exact ⟨rfl, rfl, rfl⟩
  | agentMessageDelta delta => exact ⟨rfl, rfl, rfl⟩
  | turnCompleted usage => exact ⟨rfl, rfl, rfl⟩
  | otherEvent ty => exact ⟨rfl, rfl, rfl⟩

theorem codexAccumulate_inv (st : CodexStreamState) (ev : OmniEvent) :
    (codexAccumulate st ev).aborted = st.aborted ∧
    (codexAccumulate st ev).done = st.done ∧
    (codexAccumulate st ev).sessionId = st.sessionId := by
  cases ev with
  | turn_end u => cases u <;> exact ⟨rfl, rfl, rfl⟩
  | _ => exact ⟨rfl, rfl, rfl⟩

theorem codexFoldl_inv (evs : List OmniEvent) (st : CodexStreamState) :
    (evs.foldl codexAccumulate st).aborted = st.aborted ∧
    (evs.foldl codexAccumulate st).done = st.done ∧
    (evs.foldl codexAccumulate st).sessionId = st.sessionId := by
  induction evs generalizing st with
  | nil => exact ⟨rfl, rfl, rfl⟩
  | cons e rest ih =>
    simp only [List.foldl_cons]
    obtain ⟨h1, h2, h3⟩ := ih (codexAccumulate st e)
    obtain ⟨g1, g2, g3⟩ := codexAccumulate_inv st e
    exact ⟨h1.trans g1, h2.trans g2, h3.trans g3⟩

theorem codexStep_inv (st : CodexStreamState) (ev : CodexEvent) :
    (codexStep st ev).2.aborted = st.aborted ∧
    (codexStep st ev).2.done = st.done ∧
    (codexStep st ev).2.sessionId = st.sessionId := by
  simp only [codexStep]
  obtain ⟨h1, h2, h3⟩ :=
    codexFoldl_inv (mapCodexEvent ev) (trackAccumulationState st ev)
  obtain ⟨g1, g2, g3⟩ := trackAccumulationState_inv st ev
  exact ⟨h1.trans g1, h2.trans g2, h3.trans g3⟩

theorem codexLoop_inv (st : CodexStreamState) (events : List CodexEvent)
    (srcErr : Option JsErr) :
    (codexLoop st events srcErr).2.1.aborted = st.aborted ∧
    (codexLoop st events srcErr).2.1.done = st.done ∧
    (codexLoop st events srcErr).2.1.sessionId = st.sessionId := by
  induction events generalizing st with
  | nil => exact ⟨rfl, rfl, rfl⟩
  | cons e rest ih =>
    simp only [codexLoop]
    split
    · exact ⟨rfl, rfl, rfl⟩
    · rcases hs : codexStep st e with ⟨evs0, st0⟩
      rcases hl : codexLoop st0 rest srcErr with ⟨evs1, st1, c1⟩
      obtain ⟨h1, h2, h3⟩ := ih st0
      rw [hl] at h1 h2 h3
      obtain ⟨g1, g2, g3⟩ := codexStep_inv st e
      rw [hs] at g1 g2 g3
      simp only [hs, hl]
      exact ⟨h1.trans g1, h2.trans g2, h3.trans g3⟩

/-- Once the abort flag is set, the Codex loop yields nothing and
changes nothing (for a source that does not itself reject). -/
theorem codexLoop_aborted (st : CodexStreamState) (events : List CodexEvent)
    (h : st.aborted = true) : codexLoop st events none = ([], st, none) := by
  cases events with
  | nil => rfl
  | cons e rest => simp [codexLoop, h]

theorem codexIterate_inv (st : CodexStreamState) (events : List CodexEvent)
    (srcErr : Option JsErr) (h : st.done = false) :
    (codexIterate st events srcErr).2.done = true ∧
    (codexIterate st events srcErr).2.aborted = st.aborted ∧
    (codexIterate st events srcErr).2.sessionId = st.sessionId := by
  simp only [codexIterate, h, Bool.false_eq_true, if_false]
  rcases hl : codexLoop st events srcErr with ⟨evs0, st0, c0⟩
  simp only [hl]
  obtain ⟨h1, h2, h3⟩ := codexLoop_inv st events srcErr
  rw [hl] at h1 h2 h3
  cases c0 with
  | none => exact ⟨rfl, h1, h3⟩
  | some e => exact ⟨rfl, h1, h3⟩

end Codex

/-! ## C7: abort semantics -/

/-- **C7 (amended)**: `abort()` is idempotent for all three streams; once
the abort flag is observed, the event-processing loop yields no further
events (for Codex, provided the underlying generator does not itself
reject into the catch clause); and the terminal accessor raises an
abort-class error after an abort — unconditionally for Codex, and
whenever no complete result had already been cached for Claude and
OpenCode. -/
theorem abort_semantics :
    (∀ st : Claude.ClaudeStreamState,
      Claude.claudeAbort (Claude.claudeAbort st) = Claude.claudeAbort st) ∧
    (∀ st : OpenCode.OpenCodeStreamState,
      OpenCode.ocAbort (OpenCode.ocAbort st) = OpenCode.ocAbort st) ∧
    (∀ st : Codex.CodexStreamState,
      Codex.codexAbort (Codex.codexAbort st) = Codex.codexAbort st) ∧
    (∀ (jp : String → Option JSVal) (st : Claude.ClaudeStreamState)
        (ms : Claude.EventMapperState) (msgs : List Claude.SDKMessage),
      st.aborted = true →
        Claude.claudeLoop jp st ms msgs = ([], .ok { st with done := true })) ∧
    (∀ (st : OpenCode.OpenCodeStreamState) (events : List JSVal), st.aborted = true →
      OpenCode.ocLoop st events = ([], .ok st)) ∧
    (∀ (st : Codex.CodexStreamState) (events : List Codex.CodexEvent), st.aborted = true →
      Codex.codexLoop st events none = ([], st, none)) ∧
    (∀ (jp : String → Option JSVal) (st : Claude.ClaudeStreamState)
        (msgs : List Claude.SDKMessage), st.aborted = true → st.result = none →
      Claude.claudeResult jp st msgs = .error (.omniError "OmniAgentError" "claude"
        .ABORT "Stream was aborted before a result was received")) ∧
    (∀ (st : OpenCode.OpenCodeStreamState) (events : List JSVal),
        st.aborted = true → st.result = none →
      OpenCode.ocResult st events = .error (.omniError "OmniAgentError" "opencode"
        .ABORT "Stream was aborted before a result was received")) ∧
    (∀ (st : Codex.CodexStreamState) (events : List Codex.CodexEvent)
        (srcErr : Option JsErr), st.aborted = true →
      Codex.codexResult st events srcErr =
        .error (.omniError "AbortError" "codex" .ABORT "Operation was aborted")) := by
  refine ⟨?_, ?_, fun st => rfl, Claude.claudeLoop_aborted, OpenCode.ocLoop_aborted,
    Codex.codexLoop_aborted, ?_, ?_, ?_⟩
  · intro st
    by_cases h : st.aborted = true <;> simp [Claude.claudeAbort, h]
  · intro st
    by_cases h : st.aborted = true <;> simp [OpenCode.ocAbort, h]
  · intro jp st msgs ha hres
    by_cases hit : st.iterating = true
    · simp [Claude.claudeResult, hres, hit, ha]
    · have hdr : (Claude.claudeIterate jp st msgs).2 =
          .ok { st with iterating := true, done := true } := by
        simp only [Claude.claudeIterate, (by simpa using hit : st.iterating = false),
          Bool.false_eq_true, if_false]
        rw [Claude.claudeLoop_aborted jp _ Claude.createEventMapperState msgs
          (by simpa using ha)]
      by_cases hd : st.done = true
      · simp [Claude.claudeResult, hres, hit, ha, hdr, hd]
      · simp [Claude.claudeResult, hres, hit, ha, hdr, hd]
  · intro st events ha hres
    by_cases hit : st.iterating = true
    · simp [OpenCode.ocResult, hres, hit, ha]
    · have hdr : (OpenCode.ocIterate st events).2 = .ok { st with iterating := true } := by
        simp [OpenCode.ocIterate, (by simpa using hit : st.iterating = false), ha]
      by_cases hd : st.done = true
      · simp [OpenCode.ocResult, hres, hit, ha, hdr, hd]
      · simp [OpenCode.ocResult, hres, hit, ha, hdr, hd]
  · intro st events srcErr ha
    by_cases hd : st.done = true
    · simp [Codex.codexResult, hd, ha]
    · have hab := (Codex.codexIterate_inv st events srcErr (by simpa using hd)).2.1
      simp [Codex.codexResult, hd, hab, ha]

/-- The raw sequence of one successful result message, and the states a
fresh Claude stream reaches by fully iterating it and then aborting. -/
def sampleResultMsgs : List Claude.SDKMessage :=
  [.result "sess" false "success" (.vobj [])]

def sampleDrainedResult : PromptResult :=
  { sessionId := "sess", messages := [], text := "", isError := false,
    structuredOutput := none, usage := {} }

def sampleDrainedState : Claude.ClaudeStreamState :=
  { sessionId := some "sess", messages := [], result := some sampleDrainedResult,
    done := true, aborted := false, iterating := true, queryClosed := false }

def sampleAbortedState : Claude.ClaudeStreamState :=
  { sampleDrainedState with aborted := true, queryClosed := true }

theorem abort_semantics_witness :
    Claude.claudeAbort (Claude.claudeAbort (Claude.claudeNew none)) =
      Claude.claudeAbort (Claude.claudeNew none) ∧
    Claude.claudeLoop jp0 { aborted := true } ⟨[]⟩ sampleResultMsgs =
      ([], .ok { aborted := true, done := true }) ∧
    Claude.claudeResult jp0 { aborted := true, done := true } [] =
      .error (.omniError "OmniAgentError" "claude" .ABORT
        "Stream was aborted before a result was received") ∧
    OpenCode.ocResult { sessionId := "s", aborted := true, done := true } [] =
      .error (.omniError "OmniAgentError" "opencode" .ABORT
        "Stream was aborted before a result was received") ∧
    Codex.codexResult { sessionId := "s", aborted := true } [] none =
      .error (.omniError "AbortError" "codex" .ABORT "Operation was aborted") :=
  ⟨abort_semantics.1 _,
   abort_semantics.2.2.2.1 jp0 _ ⟨[]⟩ sampleResultMsgs rfl,
   abort_semantics.2.2.2.2.2.2.1 jp0 _ [] rfl rfl,
   abort_semantics.2.2.2.2.2.2.2.1 _ [] rfl rfl,
   abort_semantics.2.2.2.2.2.2.2.2 _ [] none rfl⟩

/-- **C7 (counterexample)**: abort after a completed run is observed
(`aborted = true`), yet the terminal accessor returns the cached result
instead of raising an abort-class error. -/
theorem result_after_abort_counterexample :
    (Claude.claudeIterate jp0 (Claude.claudeNew none) sampleResultMsgs).2 =
      .ok sampleDrainedState ∧
    Claude.claudeAbort sampleDrainedState = sampleAbortedState ∧
    sampleAbortedState.aborted = true ∧
    Claude.claudeResult jp0 sampleAbortedState [] =
      .ok (sampleDrainedResult, sampleAbortedState) :=
  ⟨rfl, rfl, rfl, rfl⟩

/-! ## C6: the result text -/

/-- **C6 (amended)**: when a Claude or OpenCode stream exhausts its raw
source without error or abort, the `text` of the synthesized Prompt
Result equals the empty-separator join of all text content blocks of the
result's messages, in message order then block order
(`collectText`); the Codex stream instead sets `text` to its
`finalText` accumulator — the text of the last completed agent-message
item (or the joined pending delta fragments) — which in general is not
that concatenation. -/
theorem result_text_concatenation :
    (∀ (jp : String → Option JSVal) (sig : Option Bool)
        (msgs : List Claude.SDKMessage) (st' : Claude.ClaudeStreamState),
      (Claude.claudeIterate jp (Claude.claudeNew sig) msgs).2 = .ok st' →
        ∀ r, st'.result = some r → r.text = Claude.collectText r.messages) ∧
    (∀ (sid : String) (sig : Option Bool) (events : List JSVal)
        (st' : OpenCode.OpenCodeStreamState),
      (OpenCode.ocIterate (OpenCode.ocNew sid sig) events).2 = .ok st' →
        ∀ r, st'.result = some r → r.text = Claude.collectText r.messages) ∧
    (∀ (sid : String) (events : List Codex.CodexEvent) (srcErr : Option JsErr)
        (r : PromptResult) (st' : Codex.CodexStreamState),
      Codex.codexResult (Codex.codexNew sid) events srcErr = .ok (r, st') →
        r.text = st'.finalText) := by
  refine ⟨?_, ?_, ?_⟩
  · intro jp sig msgs st' h
    have hit : (Claude.claudeNew sig).iterating = false := by
      cases sig with
      | none => rfl
      | some b => cases b <;> rfl
    have hres : (Claude.claudeNew sig).result = none := by
      cases sig with
      | none => rfl
      | some b => cases b <;> rfl
    simp only [Claude.claudeIterate, hit, Bool.false_eq_true, if_false] at h
    rcases hl : Claude.claudeLoop jp { Claude.claudeNew sig with iterating := true }
      Claude.createEventMapperState msgs with ⟨evs0, r0⟩
    rw [hl] at h
    cases r0 with
    | error e => cases h
    | ok stL =>
      cases h
      refine Claude.claudeLoop_resultTextOk jp _ _ msgs evs0 _ hl ?_
      intro r hr
      simp only [Claude.ClaudeStreamState.result] at hr
      rw [hres] at hr
      cases hr
  · intro sid sig events st' h
    have hit : (OpenCode.ocNew sid sig).iterating = false := by
      cases sig with
      | none => rfl
      | some b => cases b <;> rfl
    have hres : (OpenCode.ocNew sid sig).result = none := by
      cases sig with
      | none => rfl
      | some b => cases b <;> rfl
    rcases hoc : OpenCode.ocIterate (OpenCode.ocNew sid sig) events with ⟨evs0, r0⟩
    rw [hoc] at h
    cases r0 with
    | error e => cases h
    | ok stL =>
      cases h
      intro r hr
      exact ((OpenCode.ocIterate_ok_inv _ events evs0 _ hit hoc).2.2 hres r hr).1
  · intro sid events srcErr r st' h
    simp only [Codex.codexResult, Codex.codexNew, Bool.false_eq_true,
      not_false_eq_true, if_true] at h
    by_cases hab :
      (Codex.codexIterate { sessionId := sid } events srcErr).2.aborted = true
    · rw [if_pos hab] at h
      cases h
    · rw [if_neg hab] at h
      simp only [Except.ok.injEq, Prod.mk.injEq] at h
      obtain ⟨hr, hst⟩ := h
      subst hst
      rw [← hr]

/-- A completed Codex agent-message item with the given id and text. -/
def c6item (idv txt : String) : Codex.ThreadItem :=
  { id := idv, type := "agentMessage", text := some txt }

/-- Two completed agent messages, "A" then "B". -/
def c6events : List Codex.CodexEvent :=
  [.itemCompleted (c6item "m1" "A"), .itemCompleted (c6item "m2" "B")]

/-- The canonical message the Codex mapper builds for `c6item`. -/
def c6msg (idv txt : String) : OmniMessage :=
  { id := .vstr idv, role := "assistant", content := [.text (.vstr txt)] }

/-- The Prompt Result a Codex stream synthesizes from `c6events`. -/
def c6res : PromptResult :=
  { sessionId := "s", messages := [c6msg "m1" "A", c6msg "m2" "B"], text := "B",
    isError := false, structuredOutput := none, usage := {} }

/-- The Codex stream state after draining `c6events`. -/
def c6finalState : Codex.CodexStreamState :=
  { sessionId := "s", aborted := false, done := true,
    messages := [c6msg "m1" "A", c6msg "m2" "B"], lastUsage := none,
    finalText := "B", isError := false, pendingTextParts := [] }

/-- **C6 (counterexample)**: a Codex stream that exhausts two completed
agent messages ("A" then "B") without error or abort synthesizes a
Prompt Result whose text is "B" — the last agent message — while the
concatenation of all text blocks across its accumulated messages is
"AB". -/
theorem codex_result_text_counterexample :
    Codex.codexResult (Codex.codexNew "s") c6events none = .ok (c6res, c6finalState) ∧
    Claude.collectText c6res.messages = "AB" ∧
    c6res.text ≠ Claude.collectText c6res.messages :=
  ⟨rfl, rfl, by decide⟩

/-- The state and result of an OpenCode stream that drains an empty
session event list. -/
def ocEmptyRunResult : PromptResult :=
  { sessionId := "s", messages := [], text := "", isError := false,
    structuredOutput := none, usage := {} }

def ocEmptyRunState : OpenCode.OpenCodeStreamState :=
  { sessionId := "s", messages := [], result := some ocEmptyRunResult,
    lastUsage := none, isError := false, done := true, aborted := false,
    iterating := true }

theorem result_text_concatenation_witness :
    sampleDrainedResult.text = Claude.collectText sampleDrainedResult.messages ∧
    ocEmptyRunResult.text = Claude.collectText ocEmptyRunResult.messages ∧
    c6res.text = c6finalState.finalText :=
  ⟨result_text_concatenation.1 jp0 none sampleResultMsgs sampleDrainedState rfl
      sampleDrainedResult rfl,
   result_text_concatenation.2.1 "s" none [] ocEmptyRunState rfl ocEmptyRunResult rfl,
   result_text_concatenation.2.2 "s" c6events none c6res c6finalState rfl⟩

/-! ## C1: the terminal accessor -/

/-- **C1 (amended)**: the terminal accessor is idempotent in the
completed and not-yet-started cases: a cached result is returned
immediately with the state unchanged (Claude/OpenCode; for Codex a
completed stream's accessor no longer consults its inputs), and calling
it on a stream whose iteration has not started is equivalent to fully
iterating and then calling it (so it returns the very result full
iteration would have produced).  Called mid-iteration (started, not
finished, not aborted, no result finalized yet) the Claude and OpenCode
accessors do **not** drain: they raise a provider error; only the Codex
accessor drains correctly from any not-yet-done state. -/
theorem result_accessor_contract :
    (∀ (jp : String → Option JSVal) (st : Claude.ClaudeStreamState)
        (msgs : List Claude.SDKMessage) (r : PromptResult), st.result = some r →
      Claude.claudeResult jp st msgs = .ok (r, st)) ∧
    (∀ (st : OpenCode.OpenCodeStreamState) (events : List JSVal) (r : PromptResult),
        st.result = some r → OpenCode.ocResult st events = .ok (r, st)) ∧
    (∀ (st : Codex.CodexStreamState) (events : List Codex.CodexEvent)
        (srcErr : Option JsErr), st.done = true →
      Codex.codexResult st events srcErr = Codex.codexResult st [] none) ∧
    (∀ (jp : String → Option JSVal) (st : Claude.ClaudeStreamState)
        (msgs : List Claude.SDKMessage),
        st.result = none → st.done = false → st.iterating = false →
      Claude.claudeResult jp st msgs =
        (match (Claude.claudeIterate jp st msgs).2 with
         | .ok st' => Claude.claudeResult jp st' msgs
         | .error e => .error e)) ∧
    (∀ (st : OpenCode.OpenCodeStreamState) (events : List JSVal),
        st.result = none → st.done = false → st.iterating = false →
      OpenCode.ocResult st events =
        (match (OpenCode.ocIterate st events).2 with
         | .ok st' => OpenCode.ocResult st' events
         | .error e => .error e)) ∧
    (∀ (st : Codex.CodexStreamState) (events : List Codex.CodexEvent)
        (srcErr : Option JsErr), st.done = false →
      Codex.codexResult st events srcErr =
        Codex.codexResult (Codex.codexIterate st events srcErr).2 [] none) ∧
    (∀ (jp : String → Option JSVal) (st : Claude.ClaudeStreamState)
        (msgs : List Claude.SDKMessage), st.iterating = true → st.done = false →
        st.aborted = false → st.result = none →
      Claude.claudeResult jp st msgs = .error (.omniError "OmniAgentError" "claude"
        .PROVIDER_ERROR "Stream ended without a result message")) ∧
    (∀ (st : OpenCode.OpenCodeStreamState) (events : List JSVal),
        st.iterating = true → st.done = false → st.aborted = false →
        st.isError = false → st.result = none →
      OpenCode.ocResult st events = .error (.omniError "OmniAgentError" "opencode"
        .PROVIDER_ERROR "Stream ended without a result")) := by
  refine ⟨?_, ?_, ?_, ?_, ?_, ?_, ?_, ?_⟩
  · intro jp st msgs r h
    simp [Claude.claudeResult, h]
  · intro st events r h
    simp [OpenCode.ocResult, h]
  · intro st events srcErr h
    simp [Codex.codexResult, h]
  · intro jp st msgs hres hdone hit
    rcases hi : Claude.claudeIterate jp st msgs with ⟨evs0, r0⟩
    cases r0 with
    | error e =>
      simp [Claude.claudeResult, hres, hdone, hit, hi]
    | ok st' =>
      obtain ⟨f1, f2, f3⟩ := Claude.claudeIterate_ok_flags jp st msgs evs0 st' hit hi
      by_cases hab : st.aborted = true
      · have hi2 : Claude.claudeIterate jp st msgs =
            ([OmniEvent.turn_start], .ok { st with iterating := true, done := true }) := by
          simp only [Claude.claudeIterate, hit, Bool.false_eq_true, if_false]
          rw [Claude.claudeLoop_aborted jp _ Claude.createEventMapperState msgs
            (by simpa using hab)]
        rw [hi] at hi2
        simp only [Prod.mk.injEq, Except.ok.injEq] at hi2
        obtain ⟨-, hst⟩ := hi2
        subst hst
        simp [Claude.claudeResult, hres, hdone, hit, hi, hab]
      · have hab' : st'.aborted = false := by rw [f2]; simpa using hab
        cases hr : st'.result with
        | some r =>
          simp [Claude.claudeResult, hres, hdone, hit, hi, hab, hab', hr, f1]
        | none =>
          simp [Claude.claudeResult, hres, hdone, hit, hi, hab, hab', hr, f1, f3]
  · intro st events hres hdone hit
    rcases hi : OpenCode.ocIterate st events with ⟨evs0, r0⟩
    cases r0 with
    | error e =>
      simp [OpenCode.ocResult, hres, hdone, hit, hi]
    | ok st' =>
      obtain ⟨f1, f2, f3⟩ := OpenCode.ocIterate_ok_inv st events evs0 st' hit hi
      cases hr : st'.result with
      | some r =>
        obtain ⟨-, hab, hierr⟩ := f3 hres r hr
        simp [OpenCode.ocResult, hres, hdone, hit, hi, hr, hab, hierr]
      | none =>
        simp [OpenCode.ocResult, hres, hdone, hit, hi, hr, f1]
  · intro st events srcErr hdone
    have hd2 := (Codex.codexIterate_inv st events srcErr hdone).1
    simp [Codex.codexResult, hdone, hd2]
  · intro jp st msgs hit hdone hab hres
    simp [Claude.claudeResult, hres, hit, hdone, hab]
  · intro st events hit hdone hab hierr hres
    simp [OpenCode.ocResult, hres, hit, hdone, hab, hierr]

/-- A Claude stream state mid-iteration: the once-only guard is set and
the synthetic `turn_start` has been yielded, but no raw message has been
consumed yet. -/
def claudeMidIterationState : Claude.ClaudeStreamState :=
  { iterating := true }

/-- The OpenCode analogue of [claudeMidIterationState]. -/
def ocMidIterationState : OpenCode.OpenCodeStreamState :=
  { sessionId := "s", iterating := true }

theorem result_accessor_contract_witness :
    Claude.claudeResult jp0 sampleDrainedState sampleResultMsgs =
      .ok (sampleDrainedResult, sampleDrainedState) ∧
    OpenCode.ocResult ocEmptyRunState [] = .ok (ocEmptyRunResult, ocEmptyRunState) ∧
    Codex.codexResult c6finalState c6events none =
      Codex.codexResult c6finalState [] none ∧
    Claude.claudeResult jp0 (Claude.claudeNew none) sampleResultMsgs =
      (match (Claude.claudeIterate jp0 (Claude.claudeNew none) sampleResultMsgs).2 with
       | .ok st' => Claude.claudeResult jp0 st' sampleResultMsgs
       | .error e => .error e) ∧
    OpenCode.ocResult (OpenCode.ocNew "s" none) [] =
      (match (OpenCode.ocIterate (OpenCode.ocNew "s" none) []).2 with
       | .ok st' => OpenCode.ocResult st' []
       | .error e => .error e) ∧
    Codex.codexResult (Codex.codexNew "s") c6events none =
      Codex.codexResult (Codex.codexIterate (Codex.codexNew "s") c6events none).2
        [] none ∧
    Claude.claudeResult jp0 claudeMidIterationState sampleResultMsgs =
      .error (.omniError "OmniAgentError" "claude" .PROVIDER_ERROR
        "Stream ended without a result message") ∧
    OpenCode.ocResult ocMidIterationState [] =
      .error (.omniError "OmniAgentError" "opencode" .PROVIDER_ERROR
        "Stream ended without a result") :=
  ⟨result_accessor_contract.1 jp0 sampleDrainedState sampleResultMsgs
      sampleDrainedResult rfl,
   result_accessor_contract.2.1 ocEmptyRunState [] ocEmptyRunResult rfl,
   result_accessor_contract.2.2.1 c6finalState c6events none rfl,
   result_accessor_contract.2.2.2.1 jp0 (Claude.claudeNew none) sampleResultMsgs
      rfl rfl rfl,
   result_accessor_contract.2.2.2.2.1 (OpenCode.ocNew "s" none) [] rfl rfl rfl,
   result_accessor_contract.2.2.2.2.2.1 (Codex.codexNew "s") c6events none rfl,
   result_accessor_contract.2.2.2.2.2.2.1 jp0 claudeMidIterationState
      sampleResultMsgs rfl rfl rfl rfl,
   result_accessor_contract.2.2.2.2.2.2.2 ocMidIterationState [] rfl rfl rfl rfl rfl⟩

/-- **C1 (counterexample)**: a Claude stream queried mid-iteration (guard
set, `turn_start` yielded, zero raw messages consumed so far) does not
drain: `result()` raises a provider error, even though full iteration of
the very same raw sequence from the fresh stream reaches a state whose
result is set — so "if called mid-iteration it still drains correctly and
returns that result" fails. -/
theorem claude_midstream_result_counterexample :
    Claude.claudeResult jp0 claudeMidIterationState sampleResultMsgs =
      .error (.omniError "OmniAgentError" "claude" .PROVIDER_ERROR
        "Stream ended without a result message") ∧
    (Claude.claudeIterate jp0 (Claude.claudeNew none) sampleResultMsgs).2 =
      .ok sampleDrainedState ∧
    sampleDrainedState.result = some sampleDrainedResult :=
  ⟨rfl, rfl, rfl⟩

end OmniAgent
